import Mathlib

/-!
# Formal model of the drone delivery fleet planner

A shallow embedding, in Lean 4, of the core of the `drone-filo` delivery
planning system (files `drone.py`, `delivery.py`, `zone.py`, `routing.py`,
`optimizer.py`, `main.py`), together with theorems settling a list of
claims about that code.

Modelling conventions:
* Python floats are idealised as exact numbers: coordinates are rational
  pairs (`ℚ × ℚ`), while derived scalar quantities that involve square
  roots (distances, battery levels, times, fitness scores) live in `ℝ`.
* Timestamps (`datetime`) are modelled as real numbers (hours since a
  reference instant); `timedelta(hours=h)` is addition of `h`.
* The geometry library used by the source (`shapely`) is external to the
  repository.  Its primitives are modelled explicitly:
  `Polygon.contains(Point)` holds exactly for points in the *interior*
  of the polygon (shapely's `contains` excludes the boundary), and
  `LineString.intersects(Polygon)` holds when the closed segment meets
  the closed polygonal region.  The interior test is the standard exact
  ray-crossing parity computation over `ℚ`.
* Mutation of Python objects is modelled by explicit state passing:
  every mutating method returns the updated record.
-/

namespace DroneFilo

/-- A point in the plane, with exact rational coordinates. -/
abbrev Point : Type := ℚ × ℚ

/-! ## Geometry (model of the shapely primitives used by `zone.py`) -/

/-- Twice the signed area of the triangle `a b c`; its sign gives the
orientation of `c` relative to the directed line `a → b`. -/
def orient (a b c : Point) : ℚ :=
  (b.1 - a.1) * (c.2 - a.2) - (b.2 - a.2) * (c.1 - a.1)

/-- `p` lies on the closed segment from `a` to `b`. -/
def onSeg (a b p : Point) : Prop :=
  orient a b p = 0 ∧
    min a.1 b.1 ≤ p.1 ∧ p.1 ≤ max a.1 b.1 ∧
    min a.2 b.2 ≤ p.2 ∧ p.2 ≤ max a.2 b.2

instance (a b p : Point) : Decidable (onSeg a b p) := by
  unfold onSeg; infer_instance

/-- Closed segments `p1p2` and `p3p4` intersect (share at least one
point).  Standard exact orientation test with collinear special cases. -/
def segSeg (p1 p2 p3 p4 : Point) : Prop :=
  let d1 := orient p3 p4 p1
  let d2 := orient p3 p4 p2
  let d3 := orient p1 p2 p3
  let d4 := orient p1 p2 p4
  (((0 < d1 ∧ d2 < 0) ∨ (d1 < 0 ∧ 0 < d2)) ∧
    ((0 < d3 ∧ d4 < 0) ∨ (d3 < 0 ∧ 0 < d4))) ∨
  (d1 = 0 ∧ onSeg p3 p4 p1) ∨ (d2 = 0 ∧ onSeg p3 p4 p2) ∨
  (d3 = 0 ∧ onSeg p1 p2 p3) ∨ (d4 = 0 ∧ onSeg p1 p2 p4)

instance (p1 p2 p3 p4 : Point) : Decidable (segSeg p1 p2 p3 p4) := by
  unfold segSeg; infer_instance

/-- The edges of the polygon with vertex list `vs` (the ring is closed:
the last vertex connects back to the first, as shapely does). -/
def edges (vs : List Point) : List (Point × Point) :=
  vs.zip (vs.rotate 1)

/-- One step of the exact ray-crossing test: the horizontal ray from `q`
to the right crosses the edge `e`. -/
def crossesRay (q : Point) (e : Point × Point) : Prop :=
  ((q.2 < e.1.2) ≠ (q.2 < e.2.2)) ∧
    q.1 < e.1.1 + (e.2.1 - e.1.1) * (q.2 - e.1.2) / (e.2.2 - e.1.2)

instance (q : Point) (e : Point × Point) : Decidable (crossesRay q e) := by
  unfold crossesRay; infer_instance

/-- Parity of the number of polygon edges crossed by the rightward
horizontal ray from `q`: `true` means an odd count, i.e. `q` is inside
the polygon provided it does not lie on the boundary. -/
def rayParity (vs : List Point) (q : Point) : Bool :=
  (edges vs).foldl (fun b e => xor b (decide (crossesRay q e))) false

/-- `q` lies on the boundary of the polygon with vertices `vs`. -/
def onPolyBoundary (vs : List Point) (q : Point) : Prop :=
  ∃ e ∈ edges vs, onSeg e.1 e.2 q

instance (vs : List Point) (q : Point) : Decidable (onPolyBoundary vs q) := by
  unfold onPolyBoundary; infer_instance

/-- Model of shapely's `Polygon.contains(Point)`: the point lies in the
*interior* of the polygon.  Shapely's `contains` predicate excludes the
boundary (one must use `covers` / `intersects` for the closed region). -/
def polyContains (vs : List Point) (q : Point) : Prop :=
  rayParity vs q = true ∧ ¬ onPolyBoundary vs q

instance (vs : List Point) (q : Point) : Decidable (polyContains vs q) := by
  unfold polyContains; infer_instance

/-- Model of shapely's `LineString([a,b]).intersects(Polygon)`: the
closed segment `ab` meets the closed polygonal region.  This holds iff
the segment crosses or touches some edge, or an endpoint lies in the
interior (a segment meeting the interior without either endpoint inside
must cross the boundary, so the disjunction is exhaustive; listing both
endpoints keeps the definition symmetric). -/
def segIntersectsPoly (a b : Point) (vs : List Point) : Prop :=
  (∃ e ∈ edges vs, segSeg a b e.1 e.2) ∨ polyContains vs a ∨ polyContains vs b

instance (a b : Point) (vs : List Point) : Decidable (segIntersectsPoly a b vs) := by
  unfold segIntersectsPoly; infer_instance

/-! ## Entities (`zone.py`, `drone.py`, `delivery.py`) -/

/-- `NoFlyZone` from `zone.py`: a polygon with an activation interval. -/
structure NoFlyZone where
  id : String
  polygonCoordinates : List Point
  activeTimeStart : ℝ
  activeTimeEnd : ℝ

/-- `NoFlyZone.is_active`: the activation interval is closed. -/
def NoFlyZone.isActive (z : NoFlyZone) (t : ℝ) : Prop :=
  z.activeTimeStart ≤ t ∧ t ≤ z.activeTimeEnd

/-- `NoFlyZone.contains_point`: delegates to shapely `Polygon.contains`. -/
def NoFlyZone.containsPoint (z : NoFlyZone) (p : Point) : Prop :=
  polyContains z.polygonCoordinates p

/-- `NoFlyZone.intersects_line`: delegates to shapely
`LineString.intersects`. -/
def NoFlyZone.intersectsLine (z : NoFlyZone) (a b : Point) : Prop :=
  segIntersectsPoly a b z.polygonCoordinates

/-- `Drone` from `drone.py`.  All fields are modelled explicitly (the
`__post_init__` defaulting is applied by whoever builds the record). -/
structure Drone where
  id : String
  maxWeight : ℝ
  batteryCapacity : ℝ
  speed : ℝ
  startPosition : Point
  currentPosition : Point
  currentBattery : ℝ
  currentWeight : ℝ
  route : List Point

/-- `Drone.can_carry`. -/
def Drone.canCarry (d : Drone) (weight : ℝ) : Prop :=
  d.currentWeight + weight ≤ d.maxWeight

/-- `Drone.has_sufficient_battery`: note the energy needed for a given
distance is `distance / speed` here (time units, not distance units). -/
def Drone.hasSufficientBattery (d : Drone) (distance : ℝ) : Prop :=
  distance / d.speed ≤ d.currentBattery

/-- `Drone.update_position`: move to `newPosition`, pay
`distance / speed` battery, append the position to the route. -/
noncomputable def Drone.updatePosition (d : Drone) (newPosition : Point) (distance : ℝ) : Drone :=
  { d with
    currentPosition := newPosition
    currentBattery := d.currentBattery - distance / d.speed
    route := d.route ++ [newPosition] }

/-- `Delivery` from `delivery.py`.  The lifecycle status is a string,
exactly as in the source (`"pending"`, `"in_progress"`, `"completed"`,
`"failed"`). -/
structure Delivery where
  id : String
  position : Point
  weight : ℝ
  priority : ℤ
  timeWindowStart : ℝ
  timeWindowEnd : ℝ
  assignedDrone : Option String
  status : String

/-- `Delivery.is_within_time_window`. -/
def Delivery.isWithinTimeWindow (dl : Delivery) (t : ℝ) : Prop :=
  dl.timeWindowStart ≤ t ∧ t ≤ dl.timeWindowEnd

/-- `Delivery.assign_to_drone`: records the drone and unconditionally
sets the status to `"in_progress"`. -/
def Delivery.assignToDrone (dl : Delivery) (droneId : String) : Delivery :=
  { dl with assignedDrone := some droneId, status := "in_progress" }

/-- `Delivery.mark_completed`. -/
def Delivery.markCompleted (dl : Delivery) : Delivery :=
  { dl with status := "completed" }

/-- `Delivery.mark_failed`. -/
def Delivery.markFailed (dl : Delivery) : Delivery :=
  { dl with status := "failed" }

/-- A status is terminal when it is `"completed"` or `"failed"`. -/
def terminalStatus (s : String) : Prop :=
  s = "completed" ∨ s = "failed"

/-! ## Router (`routing.py`, class `AStarRouter`)

The A* search is a `while` loop over a heap.  It is embedded as a
fuel-indexed recursion; the fuel used by `findPath` is a bound that is
provably larger than the number of iterations the loop can perform
(see `astarLoop_measure` below), so the fuel-exhaustion branch of the
model is unreachable and the embedding computes exactly what the
source's unbounded loop computes. -/

/-- A grid cell. -/
abbrev Node : Type := ℤ × ℤ

/-- Python `int(·)` applied to an exact rational: truncation toward 0. -/
def ratTrunc (q : ℚ) : ℤ := if 0 ≤ q then ⌊q⌋ else ⌈q⌉

/-- Euclidean distance between two points (`_euclidean_distance`,
applied to real coordinates). -/
noncomputable def eDist (a b : Point) : ℝ :=
  Real.sqrt (((a.1 - b.1) ^ 2 + (a.2 - b.2) ^ 2 : ℚ))

/-- Euclidean distance between two grid cells (`_euclidean_distance`,
applied to grid coordinates, as in the step cost and heuristic). -/
noncomputable def gridDist (a b : Node) : ℝ :=
  Real.sqrt ((((a.1 - b.1 : ℤ) : ℝ)) ^ 2 + (((a.2 - b.2 : ℤ) : ℝ)) ^ 2)

/-- The point on the closed segment `ab` closest to `p` (exact rational
projection, used to model shapely's point-to-linestring distance). -/
def closestOnSeg (a b p : Point) : Point :=
  let dx := b.1 - a.1
  let dy := b.2 - a.2
  let den := dx ^ 2 + dy ^ 2
  if den = 0 then a
  else
    let s := max 0 (min 1 (((p.1 - a.1) * dx + (p.2 - a.2) * dy) / den))
    (a.1 + s * dx, a.2 + s * dy)

/-- Distance from `p` to the closed segment `ab`. -/
noncomputable def ptSegDist (a b p : Point) : ℝ := eDist p (closestOnSeg a b p)

/-- `NoFlyZone.distance_to_boundary`: minimum distance from a point to
the polygon's boundary (model of shapely `point.distance(boundary)`). -/
noncomputable def NoFlyZone.distanceToBoundary (z : NoFlyZone) (p : Point) : ℝ :=
  match (edges z.polygonCoordinates).map (fun e => ptSegDist e.1 e.2 p) with
  | [] => 0
  | d :: ds => ds.foldl min d

/-- `AStarRouter` configuration: grid dimensions and resolution
(`resolution` defaults to `1.0` at every construction site in the
source). -/
structure AStarRouter where
  gridSize : ℤ × ℤ
  resolution : ℚ

/-- Quantisation of a real coordinate to its grid cell
(`int(x / self.resolution)`). -/
def AStarRouter.toGrid (r : AStarRouter) (p : Point) : Node :=
  (ratTrunc (p.1 / r.resolution), ratTrunc (p.2 / r.resolution))

/-- Real position of a grid cell (`(pos[0]*resolution, pos[1]*resolution)`). -/
def AStarRouter.realPos (r : AStarRouter) (n : Node) : Point :=
  ((n.1 : ℚ) * r.resolution, (n.2 : ℚ) * r.resolution)

/-- The eight direction offsets, in source order. -/
def dirs : List (ℤ × ℤ) := [(0,1), (1,0), (0,-1), (-1,0), (1,1), (-1,1), (1,-1), (-1,-1)]

/-- `pos` lies inside the grid bounds. -/
def AStarRouter.inBounds (r : AStarRouter) (pos : Node) : Prop :=
  0 ≤ pos.1 ∧ pos.1 < r.gridSize.1 ∧ 0 ≤ pos.2 ∧ pos.2 < r.gridSize.2

instance (r : AStarRouter) (pos : Node) : Decidable (r.inBounds pos) := by
  unfold AStarRouter.inBounds; infer_instance

/-- `_get_neighbors`: in-bounds 8-connected neighbours, in source order. -/
def AStarRouter.getNeighbors (r : AStarRouter) (pos : Node) : List Node :=
  dirs.filterMap fun d =>
    let n := (pos.1 + d.1, pos.2 + d.2)
    if r.inBounds n then some n else none

/-- `_is_valid_move` with a previous position (the only form used inside
the search loop): the real segment from `prev` to `pos` must not
intersect any zone active at `t`. -/
def AStarRouter.isValidMove (r : AStarRouter) (pos : Node) (zones : List NoFlyZone)
    (t : ℝ) (prev : Node) : Prop :=
  ∀ z ∈ zones, z.isActive t →
    ¬ segIntersectsPoly (r.realPos prev) (r.realPos pos) z.polygonCoordinates

open Classical in
/-- `_heuristic`: Euclidean distance in cell units plus a proximity
penalty of `(5 - d)·2` for every active zone whose boundary is closer
than `5` real units. -/
noncomputable def AStarRouter.heuristic (r : AStarRouter) (a b : Node)
    (zones : List NoFlyZone) (t : ℝ) : ℝ :=
  gridDist a b +
    (zones.map fun z =>
      if z.isActive t then
        if z.distanceToBoundary (r.realPos a) < 5 then
          (5 - z.distanceToBoundary (r.realPos a)) * 2 else 0
      else 0).sum

/-- A heap entry `(f_score, insertion counter, node)`. -/
abbrev HeapEntry : Type := ℝ × ℕ × Node

/-- The `heapq` ordering on entries: lexicographic on
`(f_score, counter)`.  Counters are unique, so the node component never
takes part in a comparison. -/
def keyLe (x y : HeapEntry) : Prop :=
  x.1 < y.1 ∨ (x.1 = y.1 ∧ x.2.1 ≤ y.2.1)

open Classical in
/-- `heappop`: remove and return the least entry of the heap. -/
noncomputable def popMin : List HeapEntry → Option (HeapEntry × List HeapEntry)
  | [] => none
  | x :: xs =>
    match popMin xs with
    | none => some (x, [])
    | some (m, rest) => if keyLe x m then some (x, xs) else some (m, x :: rest)

/-- The mutable search state of `find_path`. -/
structure AState where
  openL : List HeapEntry
  closed : Finset Node
  cameFrom : Node → Option Node
  gScore : Node → Option ℝ
  counter : ℕ

open Classical in
/-- Processing of one neighbour inside the expansion loop of
`find_path`.  (A popped node always owns a `g_score` entry — invariant
`Inv` below — so the `getD 0` default used to read `g_score[current]`
is inert.) -/
noncomputable def expandNeighbor (r : AStarRouter) (zones : List NoFlyZone) (t : ℝ)
    (goalG : Node) (current : Node) (st : AState) (nb : Node) : AState :=
  if nb ∈ st.closed ∨ ¬ r.isValidMove nb zones t current then st
  else
    let tentative := (st.gScore current).getD 0 + gridDist current nb
    -- `neighbor not in g_score or tentative_g < g_score[neighbor]`:
    if ∀ gnb, st.gScore nb = some gnb → tentative < gnb then
      { st with
        cameFrom := Function.update st.cameFrom nb (some current)
        gScore := Function.update st.gScore nb (some tentative)
        openL := st.openL ++
          [(tentative + r.heuristic nb goalG zones t, st.counter, nb)]
        counter := st.counter + 1 }
    else st

/-- The expansion loop body of `find_path`: process every neighbour of
the freshly popped `current`. -/
noncomputable def expandAll (r : AStarRouter) (zones : List NoFlyZone) (t : ℝ)
    (goalG : Node) (current : Node) (st : AState) : AState :=
  (r.getNeighbors current).foldl (expandNeighbor r zones t goalG current) st

/-- Path reconstruction: walk the parent pointers from the goal back to
the start, collecting real positions.  The fuel dominates the (finite)
parent-chain length. -/
def reconstructAux (r : AStarRouter) (cameFrom : Node → Option Node) :
    ℕ → Node → List Point → List Point
  | 0, _, path => path
  | fuel + 1, cur, path =>
    match cameFrom cur with
    | some prev => reconstructAux r cameFrom fuel prev (path ++ [r.realPos cur])
    | none => path

/-- Fuel used by `findPath`; proved below to exceed the number of
iterations the source loop can perform on the corresponding grid. -/
def fuelBound (r : AStarRouter) : ℕ :=
  8 * (r.gridSize.1.toNat * r.gridSize.2.toNat + 1) + 9

open Classical in
/-- The main `while open_set:` loop of `find_path`. -/
noncomputable def astarLoop (r : AStarRouter) (zones : List NoFlyZone) (t : ℝ)
    (start : Point) (goalG : Node) : ℕ → AState → List Point
  | 0, _ => []
  | fuel + 1, st =>
    match popMin st.openL with
    | none => []
    | some (e, rest) =>
      let current := e.2.2
      if current = goalG then
        (reconstructAux r st.cameFrom (fuelBound r) current [] ++ [start]).reverse
      else
        astarLoop r zones t start goalG fuel
          (expandAll r zones t goalG current
            { st with openL := rest, closed := insert current st.closed })

/-- `AStarRouter.find_path`.  The `drone` parameter is accepted, and —
as in the source — never used. -/
noncomputable def AStarRouter.findPath (r : AStarRouter) (start goal : Point)
    (drone : Drone) (zones : List NoFlyZone) (t : ℝ) : List Point :=
  let startG := r.toGrid start
  let goalG := r.toGrid goal
  astarLoop r zones t start goalG (fuelBound r)
    { openL := [(r.heuristic startG goalG zones t, 0, startG)]
      closed := ∅
      cameFrom := fun _ => none
      gScore := Function.update (fun _ => none) startG (some 0)
      counter := 1 }

/-! ## Planners (`optimizer.py`)

All three planners use the hard-coded router `AStarRouter((100, 100))`
with the default resolution `1.0`.  Wall-clock timeouts are modelled as
*unexpired*: every `time.time() - start_time > timeout_seconds` test in
the source is `False` (the claims under study all condition on the
deadline not expiring; real time has no shallow embedding).  The
`try/except` guards around path finding are inert in the model because
the embedded router is total. -/

/-- The router every optimizer constructs: `AStarRouter((100, 100))`. -/
def optimizerRouter : AStarRouter := ⟨(100, 100), 1⟩

/-- Sum of the segment lengths of a path
(`sum(np.sqrt(...) for i in range(len(path)-1))`). -/
noncomputable def pathDist : List Point → ℝ
  | [] => 0
  | [_] => 0
  | a :: b :: rest => eDist a b + pathDist (b :: rest)

/-- Some active zone intersects some segment of the path (the
no-fly-zone re-validation loop shared by all planners and the
executor). -/
def pathBlocked (zones : List NoFlyZone) (t : ℝ) (path : List Point) : Prop :=
  ∃ z ∈ zones, z.isActive t ∧ ∃ pq ∈ path.zip path.tail, z.intersectsLine pq.1 pq.2

/-- Working per-vehicle snapshot used by `solve_csp`
(`drone_states[drone.id]`). -/
structure DroneState where
  position : Point
  battery : ℝ
  time : ℝ
  route : List Point

/-- Junk values standing for Python dict/list accesses that cannot fail
in any reachable state (they are never produced by the model on the
executions the theorems talk about). -/
def junkDroneState : DroneState := ⟨(0, 0), 0, 0, []⟩

open Classical in
/-- The per-(vehicle, parcel) feasibility evaluation inside the parcel
loop of `solve_csp` (`optimizer.py` lines 248–279): weight check, path
existence (`len(path) < 2` counts as no path), active-zone blocking,
battery (`battery_used = total_dist`, rejected when it exceeds the
snapshot's remaining energy), and the arrival time window.  Returns the
feasible arrival time and path, or `none` with the vehicle skipped. -/
noncomputable def cspCandidate (zones : List NoFlyZone) (st : DroneState)
    (d : Drone) (dl : Delivery) : Option (ℝ × List Point) :=
  if dl.weight > d.maxWeight then none
  else
    let path := optimizerRouter.findPath st.position dl.position d zones st.time
    if path.length < 2 then none
    else if pathBlocked zones st.time path then none
    else
      let totalDist := pathDist path
      let arrival := st.time + totalDist / d.speed
      if totalDist > st.battery then none
      else if ¬ (dl.timeWindowStart ≤ arrival ∧ arrival ≤ dl.timeWindowEnd) then none
      else some (arrival, path)

open Classical in
/-- The best-vehicle selection of `solve_csp`: scan the fleet in order,
keep the candidate with the strictly earliest arrival
(`best_arrival_time is None or arrival_time < best_arrival_time`). -/
noncomputable def cspSelect (zones : List NoFlyZone) (states : String → DroneState)
    (drones : List Drone) (dl : Delivery) : Option (Drone × ℝ × List Point) :=
  drones.foldl
    (fun best d =>
      match cspCandidate zones (states d.id) d dl with
      | none => best
      | some (arrival, path) =>
        match best with
        | none => some (d, arrival, path)
        | some (_, bestArrival, _) =>
          if arrival < bestArrival then some (d, arrival, path) else best)
    none

/-- Append a parcel to a vehicle's list in the assignment map. -/
def assignAppend (asg : List (String × List Delivery)) (id : String)
    (dl : Delivery) : List (String × List Delivery) :=
  asg.map fun p => if p.1 = id then (p.1, p.2 ++ [dl]) else p

/-- `Delivery.__lt__`: higher priority first, then earlier deadline
(window end) first. -/
def deliveryLt (a b : Delivery) : Prop :=
  if a.priority ≠ b.priority then b.priority < a.priority
  else a.timeWindowEnd < b.timeWindowEnd

open Classical in
/-- The constructor's `sorted(deliveries)` (stable, driven by
`Delivery.__lt__`). -/
noncomputable def initSort (dls : List Delivery) : List Delivery :=
  dls.mergeSort fun a b => ! decide (deliveryLt b a)

/-- `solve_csp`'s own ordering key `(-priority, time_window_start)`
(ascending lexicographic). -/
def cspKeyLe (a b : Delivery) : Prop :=
  -a.priority < -b.priority ∨
    (-a.priority = -b.priority ∧ a.timeWindowStart ≤ b.timeWindowStart)

open Classical in
/-- `sorted(self.deliveries, key=lambda d: (-d.priority, d.time_window_start))`. -/
noncomputable def cspSort (dls : List Delivery) : List Delivery :=
  dls.mergeSort fun a b => decide (cspKeyLe a b)

/-- Result of `solve_csp`: the assignment map (vehicle id → indices
into `deliveries`), the written-back fleet, and the parcel list in the
planner's visiting order with statuses stamped.  Indices model Python's
aliasing of the shared `Delivery` objects between the returned
assignment and the planner's parcel list. -/
structure CspResult where
  assignment : List (String × List ℕ)
  drones : List Drone
  deliveries : List Delivery

/-- Append a parcel index to a vehicle's list in an index assignment. -/
def assignAppendIdx (asg : List (String × List ℕ)) (id : String) (i : ℕ) :
    List (String × List ℕ) :=
  asg.map fun p => if p.1 = id then (p.1, p.2 ++ [i]) else p

open Classical in
/-- One iteration of the parcel loop of `solve_csp`: select the best
vehicle; on success commit the snapshot — the position becomes the
parcel's, the battery decreases by the total distance, the clock
becomes the arrival, the route is extended by `path[1:]` — and stamp
`"completed"`; otherwise stamp `"failed"`. -/
noncomputable def cspStep (zones : List NoFlyZone) (drones : List Drone)
    (acc : (String → DroneState) × List (String × List ℕ) × List Delivery)
    (p : ℕ × Delivery) :
    (String → DroneState) × List (String × List ℕ) × List Delivery :=
  let (states, asg, done) := acc
  let dl := p.2
  match cspSelect zones states drones dl with
  | some (d, arrival, path) =>
    let st := states d.id
    let dl' := { dl with assignedDrone := some d.id, status := "completed" }
    let st' : DroneState :=
      { position := dl.position
        battery := st.battery - pathDist path
        time := arrival
        route := st.route ++ path.tail }
    (Function.update states d.id st', assignAppendIdx asg d.id p.1, done ++ [dl'])
  | none => (states, asg, done ++ [{ dl with status := "failed" }])

open Classical in
/-- `DeliveryOptimizer.solve_csp` (with the constructor's initial sort
of the parcel list and an unexpired deadline).  After the loop every
vehicle's snapshot is committed back to the fleet. -/
noncomputable def solveCsp (drones : List Drone) (deliveries : List Delivery)
    (zones : List NoFlyZone) (currentTime : ℝ) : CspResult :=
  let ordered := cspSort (initSort deliveries)
  let states0 : String → DroneState :=
    drones.foldl
      (fun f d => Function.update f d.id
        ⟨d.currentPosition, d.currentBattery, currentTime, d.route⟩)
      (fun _ => junkDroneState)
  let asg0 : List (String × List ℕ) := drones.map fun d => (d.id, [])
  let (statesF, asgF, doneF) := ordered.enum.foldl (cspStep zones drones) (states0, asg0, [])
  { assignment := asgF
    drones := drones.map fun d =>
      { d with
        route := (statesF d.id).route
        currentPosition := (statesF d.id).position
        currentBattery := (statesF d.id).battery }
    deliveries := doneF }

/-- Result of the genetic/greedy planners: the assignment (vehicle id →
indices into the parcel list) and the parcel list with statuses
stamped.  Indices model Python's aliasing of the shared `Delivery`
objects between the returned assignment and `self.deliveries`. -/
structure PlanResult where
  assignment : List (String × List ℕ)
  deliveries : List Delivery

/-- Inert default for list accesses that cannot fail. -/
def junkDelivery : Delivery := ⟨"", (0, 0), 0, 0, 0, 0, none, "pending"⟩

/-- Inert default for `next(d for d in self.drones if d.id == drone_id)`
on ids that are always present. -/
def junkDrone : Drone := ⟨"", 0, 0, 1, (0, 0), (0, 0), 0, 0, []⟩

open Classical in
/-- The acceptance test of `solve_greedy` for one vehicle: weight and
time window first, then a usable route — non-empty (`not path`) and not
blocked by an active zone.  The vehicle's battery is never consulted. -/
noncomputable def greedyAccepts (zones : List NoFlyZone) (t : ℝ)
    (d : Drone) (dl : Delivery) : Prop :=
  d.canCarry dl.weight ∧ dl.isWithinTimeWindow t ∧
    (let path := optimizerRouter.findPath d.currentPosition dl.position d zones t
     path ≠ [] ∧ ¬ pathBlocked zones t path)

open Classical in
/-- The inner fleet scan of `solve_greedy`: keep the acceptable vehicle
whose current position is nearest to the parcel (`float('inf')`
initial best distance is modelled by the `none` case, which any real
distance beats). -/
noncomputable def greedyPick (zones : List NoFlyZone) (t : ℝ) (drones : List Drone)
    (dl : Delivery) : Option (Drone × ℝ) :=
  drones.foldl
    (fun best d =>
      if greedyAccepts zones t d dl then
        let dist := eDist d.currentPosition dl.position
        match best with
        | none => some (d, dist)
        | some (_, bestDist) => if dist < bestDist then some (d, dist) else best
      else best)
    none

open Classical in
open Classical in
/-- The loop body of the fleet scan of `solve_greedy`, named for the
proofs below (definitionally the fold function of `greedyPick`). -/
noncomputable def greedyStep (zones : List NoFlyZone) (t : ℝ) (dl : Delivery)
    (best : Option (Drone × ℝ)) (d : Drone) : Option (Drone × ℝ) :=
  if greedyAccepts zones t d dl then
    let dist := eDist d.currentPosition dl.position
    match best with
    | none => some (d, dist)
    | some (_, bestDist) => if dist < bestDist then some (d, dist) else best
  else best

/-- `GeneticOptimizer.solve_greedy`: for each parcel in original order
assign the nearest acceptable vehicle and stamp `"completed"`, else
stamp `"failed"`. -/
noncomputable def solveGreedy (drones : List Drone) (deliveries : List Delivery)
    (zones : List NoFlyZone) (currentTime : ℝ) : PlanResult :=
  let asg0 : List (String × List ℕ) := drones.map fun d => (d.id, [])
  let step := fun (acc : List (String × List ℕ) × List Delivery) (i : ℕ) =>
    let dl := acc.2.getD i junkDelivery
    match greedyPick zones currentTime drones dl with
    | some (d, _) =>
      (acc.1.map fun p => if p.1 = d.id then (p.1, p.2 ++ [i]) else p,
        acc.2.set i dl.markCompleted)
    | none => (acc.1, acc.2.set i dl.markFailed)
  let (asgF, dlsF) := (List.range deliveries.length).foldl step (asg0, deliveries)
  { assignment := asgF, deliveries := dlsF }

/-! ### Genetic planner (`GeneticOptimizer`)

The pseudo-random source (`random.randint`, `random.random`,
`random.choice`, `random.sample`) is modelled as an explicit stream of
naturals threaded through every consumer; each draw consumes one stream
element.  Any fixed stream yields one deterministic run of the
planner. -/

/-- A deterministic model of Python's `random` state: a stream of
naturals (an exhausted stream keeps yielding `0`). -/
structure Rng where
  stream : List ℕ

/-- Draw one natural from the stream. -/
def Rng.next (r : Rng) : ℕ × Rng := (r.stream.headD 0, ⟨r.stream.tail⟩)

/-- Model of `random.randint(0, n-1)` / `random.choice` /
index selection for `random.sample`: a stream value reduced mod `n`. -/
def randIdx (n : ℕ) (r : Rng) : ℕ × Rng :=
  let (v, r') := r.next
  (v % max n 1, r')

/-- Model of `random.random()`: a rational in `[0, 1)` derived from one
stream value. -/
def randFloat (r : Rng) : ℚ × Rng :=
  let (v, r') := r.next
  (((v % 1000 : ℕ) : ℚ) / 1000, r')

/-- A genome: position `i` holds `(vehicle id, i)`, the vehicle assigned
to parcel `i`. -/
abbrev Genome : Type := List (String × ℕ)

/-- One random individual: a uniformly drawn vehicle per parcel (used by
both `_initialize_population` and `_random_individual`). -/
def mkIndividual (drones : List Drone) (numDeliveries : ℕ) (rng : Rng) : Genome × Rng :=
  (List.range numDeliveries).foldl
    (fun acc i =>
      let (v, r') := randIdx drones.length acc.2
      (acc.1 ++ [((drones.getD v junkDrone).id, i)], r'))
    ([], rng)

/-- `_initialize_population`. -/
def initPopulation (drones : List Drone) (numDeliveries popSize : ℕ) (rng : Rng) :
    List Genome × Rng :=
  (List.range popSize).foldl
    (fun acc _ =>
      let (g, r') := mkIndividual drones numDeliveries acc.2
      (acc.1 ++ [g], r'))
    ([], rng)

/-- `_convert_to_assignment`: group the genome's parcel indices by
vehicle (every genome vehicle id is a fleet id, so the append always
finds its key). -/
def convertIdx (drones : List Drone) (g : Genome) : List (String × List ℕ) :=
  g.foldl (fun asg p => assignAppendIdx asg p.1 p.2) (drones.map fun d => (d.id, []))

open Classical in
/-- The contribution of one (vehicle, parcel) pair inside
`_calculate_fitness`: −100 for a missing or blocked route, otherwise
`priority · 10` *only when the parcel's stored status is
`"completed"`*, minus 2·(straight-line distance / speed), minus 20 when
the clock is outside the parcel's window. -/
noncomputable def fitContribution (zones : List NoFlyZone) (t : ℝ)
    (deliveries : List Delivery) (d : Drone) (i : ℕ) : ℝ :=
  let dl := deliveries.getD i junkDelivery
  let path := optimizerRouter.findPath d.currentPosition dl.position d zones t
  if path = [] ∨ pathBlocked zones t path then -100
  else
    (if dl.status = "completed" then (dl.priority : ℝ) * 10 else 0)
      - eDist d.currentPosition dl.position / d.speed * 2
      - (if ¬ dl.isWithinTimeWindow t then 20 else 0)

open Classical in
/-- `_calculate_fitness`: per-pair contributions plus the load-balancing
terms (−50 per unused vehicle, −5·(k−μ)² per used vehicle with k
parcels where μ = |parcels|/|vehicles|, +10 per used vehicle). -/
noncomputable def calculateFitness (drones : List Drone) (deliveries : List Delivery)
    (zones : List NoFlyZone) (t : ℝ) (g : Genome) : ℝ :=
  let asg := convertIdx drones g
  (asg.map fun p =>
      let d := (drones.find? fun dr => dr.id = p.1).getD junkDrone
      (p.2.map (fitContribution zones t deliveries d)).sum).sum
    - 50 * ((asg.countP fun p => p.2.isEmpty : ℕ) : ℝ)
    - (asg.filterMap fun p =>
        if p.2.isEmpty then none
        else some (((p.2.length : ℝ) - (deliveries.length : ℝ) / (drones.length : ℝ)) ^ 2 * 5)).sum
    + 10 * ((asg.countP fun p => ! p.2.isEmpty : ℕ) : ℝ)

open Classical in
/-- `_select_parents`: per slot, a tournament of three stream-chosen
individuals, won by the highest fitness (first winner kept on ties, as
Python's `max`). -/
noncomputable def selectParents (pop : List Genome) (scores : List ℝ)
    (rng : Rng) : List Genome × Rng :=
  let zs := pop.zip scores
  (List.range pop.length).foldl
    (fun acc _ =>
      let (i1, r1) := randIdx zs.length acc.2
      let (i2, r2) := randIdx zs.length r1
      let (i3, r3) := randIdx zs.length r2
      let c1 := zs.getD i1 ([], 0)
      let winner := ([zs.getD i2 ([], 0), zs.getD i3 ([], 0)]).foldl
        (fun best c => if c.2 > best.2 then c else best) c1
      (acc.1 ++ [winner.1], r3))
    ([], rng)

/-- `_crossover`: single-point crossover at a stream-chosen cut. -/
def crossover (p1 p2 : Genome) (rng : Rng) : Genome × Rng :=
  let (point, r') := randIdx p1.length rng
  (p1.take point ++ p2.drop point, r')

open Classical in
/-- `_mutate`: per gene, with probability 0.3, re-sample the vehicle
uniformly (the parcel index of the gene is kept). -/
noncomputable def mutate (drones : List Drone) (g : Genome) (rng : Rng) : Genome × Rng :=
  g.foldl
    (fun acc gene =>
      let (v, r1) := randFloat acc.2
      if v < 3 / 10 then
        let (ni, r2) := randIdx drones.length r1
        (acc.1 ++ [((drones.getD ni junkDrone).id, gene.2)], r2)
      else (acc.1 ++ [gene], r1))
    ([], rng)

open Classical in
/-- The child-generation loop of `solve`: `population_size` children;
each is, with probability 0.2, a fresh random individual, otherwise a
mutated crossover of two stream-chosen parents. -/
noncomputable def genChildren (drones : List Drone) (numDeliveries : ℕ)
    (parents : List Genome) : ℕ → Rng → List Genome × Rng
  | 0, rng => ([], rng)
  | k + 1, rng =>
    let (v, r1) := randFloat rng
    if v < 1 / 5 then
      let (ind, r2) := mkIndividual drones numDeliveries r1
      let (rest, r3) := genChildren drones numDeliveries parents k r2
      (ind :: rest, r3)
    else
      let (i1, r2) := randIdx parents.length r1
      let (i2, r3) := randIdx parents.length r2
      let p1 := parents.getD i1 []
      let p2 := parents.getD i2 []
      let (child, r4) := crossover p1 p2 r3
      let (child', r5) := mutate drones child r4
      let (rest, r6) := genChildren drones numDeliveries parents k r5
      (child' :: rest, r6)

open Classical in
/-- The generational loop of `solve` (deadline unexpired): score the
population, track the best-ever individual, stop early after
`earlyStop` rounds without improvement, then select parents and build
the next population. -/
noncomputable def gaLoop (drones : List Drone) (deliveries : List Delivery)
    (zones : List NoFlyZone) (t : ℝ) (popSize earlyStop : ℕ) :
    ℕ → List Genome → Option (ℝ × Genome) → ℕ → Rng →
      Option (ℝ × Genome) × List Genome × Rng
  | 0, pop, best, _, rng => (best, pop, rng)
  | g + 1, pop, best, noImprove, rng =>
    let scores := pop.map (calculateFitness drones deliveries zones t)
    match scores with
    | [] => (best, pop, rng)
    | s0 :: srest =>
      let genBest := srest.foldl max s0
      let improved : Prop := ∀ bf ∈ (best.map Prod.fst), genBest > bf
      let best' := if improved
        then some (genBest, pop.getD (scores.findIdx fun s => decide (s = genBest)) [])
        else best
      let noImprove' := if improved then 0 else noImprove + 1
      if earlyStop ≤ noImprove' then (best', pop, rng)
      else
        let (parents, rng1) := selectParents pop scores rng
        let (newPop, rng2) := genChildren drones deliveries.length parents popSize rng1
        gaLoop drones deliveries zones t popSize earlyStop g newPop best' noImprove' rng2

open Classical in
/-- `max(population, key=self._calculate_fitness)` (first maximum kept,
as Python's `max`). -/
noncomputable def maxByFitness (drones : List Drone) (deliveries : List Delivery)
    (zones : List NoFlyZone) (t : ℝ) : List Genome → Genome
  | [] => []
  | p :: ps =>
    ps.foldl
      (fun best c =>
        if calculateFitness drones deliveries zones t c >
            calculateFitness drones deliveries zones t best then c else best) p

open Classical in
/-- `GeneticOptimizer.solve` with an unexpired deadline: run the
generational loop, decode the best individual, and stamp each parcel of
the decoded assignment — `"failed"` when its route is blocked by an
active zone, `"completed"` when the route is accepted, and *no stamp at
all* (only a log line in the source) when the router returned no
path. -/
noncomputable def gaSolve (drones : List Drone) (deliveries : List Delivery)
    (zones : List NoFlyZone) (t : ℝ) (popSize generations earlyStop : ℕ)
    (rng : Rng) : PlanResult :=
  let (pop0, rng1) := initPopulation drones deliveries.length popSize rng
  let (best, popF, rng2) := gaLoop drones deliveries zones t popSize earlyStop
    generations pop0 none 0 rng1
  let bestSol := match best with
    | some (_, g) => g
    | none =>
      match popF with
      | [] => (mkIndividual drones deliveries.length rng2).1
      | p :: ps => maxByFitness drones deliveries zones t (p :: ps)
  let asg := convertIdx drones bestSol
  let dlsF := asg.foldl
    (fun dls p =>
      let d := (drones.find? fun dr => dr.id = p.1).getD junkDrone
      p.2.foldl
        (fun dls i =>
          let dl := dls.getD i junkDelivery
          let path := optimizerRouter.findPath d.currentPosition dl.position d zones t
          if path = [] then dls
          else if pathBlocked zones t path then dls.set i dl.markFailed
          else dls.set i dl.markCompleted)
        dls)
    deliveries
  { assignment := asg, deliveries := dlsF }

/-! ## Executor and system pipeline (`main.py`) -/

open Classical in
/-- The per-parcel trajectory replay of `execute_deliveries`: walk the
vehicle through every path node, paying `segment length / speed` of
battery per step. -/
noncomputable def walkPath (d : Drone) : List Point → Drone
  | [] => d
  | [_] => d
  | a :: b :: rest => walkPath (d.updatePosition b (eDist a b)) (b :: rest)

/-- Replace the first fleet entry with the given id (models mutation of
the object returned by `next(d for d in self.drones if d.id == ...)`). -/
def setFirstById (id : String) (d' : Drone) : List Drone → List Drone
  | [] => []
  | d :: rest => if d.id = id then d' :: rest else d :: setFirstById id d' rest

open Classical in
/-- `DroneDeliverySystem.execute_deliveries`: for every vehicle and
every parcel assigned to it, re-route from the vehicle's current
position, re-validate against active zones, then either replay the
trajectory (battery decremented per segment) and stamp `"completed"`,
or stamp `"failed"` without moving. -/
noncomputable def executeDeliveries (gridSize : ℤ × ℤ) (drones : List Drone)
    (deliveries : List Delivery) (zones : List NoFlyZone) (t : ℝ)
    (asg : List (String × List ℕ)) : List Drone × List Delivery :=
  let router : AStarRouter := ⟨gridSize, 1⟩
  asg.foldl
    (fun acc p =>
      let d0 := (acc.1.find? fun dr => dr.id = p.1).getD junkDrone
      let (dF, dls') := p.2.foldl
        (fun (acc2 : Drone × List Delivery) i =>
          let dl := acc2.2.getD i junkDelivery
          let path := router.findPath acc2.1.currentPosition dl.position acc2.1 zones t
          if path ≠ [] ∧ ¬ pathBlocked zones t path then
            (walkPath acc2.1 path, acc2.2.set i dl.markCompleted)
          else (acc2.1, acc2.2.set i dl.markFailed))
        (d0, acc.2)
      (setFirstById p.1 dF acc.1, dls'))
    (drones, deliveries)

/-- `DroneDeliverySystem`: the entity collections and configuration. -/
structure DeliverySystem where
  drones : List Drone
  deliveries : List Delivery
  noFlyZones : List NoFlyZone
  currentTime : ℝ
  gridSize : ℤ × ℤ

open Classical in
/-- `DroneDeliverySystem.optimize_deliveries`: dispatch to greedy,
genetic (constructor defaults: population 30, 20 generations, early
stop 5) or CSP.  Returns the assignment, the fleet (mutated only by
CSP) and the parcel list the assignment's indices refer to. -/
noncomputable def optimizeDeliveries (s : DeliverySystem) (useGenetic useGreedy : Bool)
    (rng : Rng) : List (String × List ℕ) × List Drone × List Delivery :=
  if useGreedy then
    let r := solveGreedy s.drones s.deliveries s.noFlyZones s.currentTime
    (r.assignment, s.drones, r.deliveries)
  else if useGenetic then
    let r := gaSolve s.drones s.deliveries s.noFlyZones s.currentTime 30 20 5 rng
    (r.assignment, s.drones, r.deliveries)
  else
    let r := solveCsp s.drones s.deliveries s.noFlyZones s.currentTime
    (r.assignment, r.drones, r.deliveries)

open Classical in
/-- The `main.py` pipeline: optimize with the chosen strategy, then
execute the resulting assignment.  Returns the final fleet and parcel
states. -/
noncomputable def optimizeThenExecute (s : DeliverySystem) (useGenetic useGreedy : Bool)
    (rng : Rng) : List Drone × List Delivery :=
  let (asg, drs, dls) := optimizeDeliveries s useGenetic useGreedy rng
  executeDeliveries s.gridSize drs dls s.noFlyZones s.currentTime asg

/-! ## Claim C9: parcel terminal states under the core operations -/

/-- A concrete completed parcel used to exercise `assign_to_drone`. -/
def completedParcel : Delivery :=
  { id := "p1", position := (3, 4), weight := 1, priority := 3
    timeWindowStart := 0, timeWindowEnd := 10
    assignedDrone := some "d1", status := "completed" }

/-! ## Claim C3: zone containment on the polygon boundary -/

/-- A square no-fly zone with corners `(0,0)` and `(1,1)`, active on
`[0, 1]`. -/
def unitSquareZone : NoFlyZone :=
  { id := "z1", polygonCoordinates := [(0, 0), (1, 0), (1, 1), (0, 1)]
    activeTimeStart := 0, activeTimeEnd := 1 }

/-- A valid search step from `u` to `v`: `v` is an in-bounds neighbour
of `u` and the corresponding real segment avoids every active zone. -/
def validEdge (r : AStarRouter) (zones : List NoFlyZone) (t : ℝ) (u v : Node) : Prop :=
  v ∈ r.getNeighbors u ∧ r.isValidMove v zones t u

/-- Reachability through valid search steps. -/
def Reaches (r : AStarRouter) (zones : List NoFlyZone) (t : ℝ) : Node → Node → Prop :=
  Relation.ReflTransGen (validEdge r zones t)

/-- The nodes currently on the frontier. -/
def openNodes (st : AState) : List Node := st.openL.map fun e => e.2.2

/-- The loop invariant of the A* search.  `startG` is the start cell,
`goalG` the goal cell. -/
structure Inv (r : AStarRouter) (zones : List NoFlyZone) (t : ℝ)
    (startG goalG : Node) (st : AState) : Prop where
  gOpen : ∀ v, (st.gScore v).isSome → v ∈ st.closed ∨ v ∈ openNodes st
  closure : ∀ u ∈ st.closed, ∀ v, validEdge r zones t u v →
    v ∈ st.closed ∨ ∃ gv gu, st.gScore v = some gv ∧ st.gScore u = some gu ∧
      gv ≤ gu + gridDist u v
  openOK : ∀ e ∈ st.openL, e.2.2 = startG ∨ r.inBounds e.2.2
  closedOK : ∀ v ∈ st.closed, v = startG ∨ r.inBounds v
  goalNotClosed : goalG ∉ st.closed
  openG : ∀ e ∈ st.openL, (st.gScore e.2.2).isSome
  closedG : ∀ v ∈ st.closed, (st.gScore v).isSome
  openReach : ∀ e ∈ st.openL, Reaches r zones t startG e.2.2

/-- The cells a search started at `startG` can ever touch: the start
cell and the in-bounds cells. -/
def okFin (r : AStarRouter) (startG : Node) : Finset Node :=
  insert startG ((Finset.Ico 0 r.gridSize.1) ×ˢ (Finset.Ico 0 r.gridSize.2))

/-- Termination measure of the search loop: frontier size plus eight
budget units per not-yet-closed reachable cell.  Every loop iteration
strictly decreases it (`inv_step`). -/
def astarMeasure (r : AStarRouter) (startG : Node) (st : AState) : ℕ :=
  st.openL.length + 8 * ((okFin r startG).card - st.closed.card)

/-! ## Claim C10: same-cell parcels -/

/-- A vehicle sitting at the origin with ample battery and payload. -/
def droneC10 : Drone :=
  { id := "d1", maxWeight := 10, batteryCapacity := 10, speed := 1
    startPosition := (0, 0), currentPosition := (0, 0)
    currentBattery := 10, currentWeight := 0, route := [(0, 0)] }

/-- A parcel in the same grid cell as `droneC10` (distinct position,
same cell `(0,0)`). -/
def parcelC10 : Delivery :=
  { id := "p1", position := (1/2, 0), weight := 1, priority := 3
    timeWindowStart := 0, timeWindowEnd := 10
    assignedDrone := none, status := "pending" }

/-! ## Claim C4: greedy planner and the battery predicate -/

/-- A vehicle with an *empty* battery. -/
def droneC4 : Drone :=
  { id := "d1", maxWeight := 10, batteryCapacity := 10, speed := 1
    startPosition := (0, 0), currentPosition := (0, 0)
    currentBattery := 0, currentWeight := 0, route := [(0, 0)] }

/-- A parcel one grid cell away from `droneC4`. -/
def parcelC4 : Delivery :=
  { id := "p1", position := (0, 1), weight := 1, priority := 3
    timeWindowStart := 0, timeWindowEnd := 10
    assignedDrone := none, status := "pending" }

/-- A vehicle whose snapshot energy exactly equals the route distance. -/
def droneC7 : Drone :=
  { id := "d7", maxWeight := 10, batteryCapacity := 1, speed := 1
    startPosition := (0, 0), currentPosition := (0, 0)
    currentBattery := 1, currentWeight := 0, route := [(0, 0)] }

/-- The `solve_csp` snapshot of `droneC7` at clock 0. -/
def stC7 : DroneState := ⟨(0, 0), 1, 0, [(0, 0)]⟩

/-- A parcel one unit of distance from `droneC7`. -/
def parcelC7 : Delivery :=
  { id := "p7", position := (0, 1), weight := 1, priority := 3
    timeWindowStart := 0, timeWindowEnd := 10
    assignedDrone := none, status := "pending" }

open Classical in
/-- The loop body of the fleet scan of `solve_csp`, named for the
proofs below (definitionally the fold function of `cspSelect`). -/
noncomputable def cspSelStep (zones : List NoFlyZone) (states : String → DroneState)
    (dl : Delivery) (best : Option (Drone × ℝ × List Point)) (d : Drone) :
    Option (Drone × ℝ × List Point) :=
  match cspCandidate zones (states d.id) d dl with
  | none => best
  | some (arrival, path) =>
    match best with
    | none => some (d, arrival, path)
    | some (_, bestArrival, _) =>
      if arrival < bestArrival then some (d, arrival, path) else best

/-- A vehicle at the origin with ample battery. -/
def droneC5 : Drone :=
  { id := "d5", maxWeight := 10, batteryCapacity := 10, speed := 1
    startPosition := (0, 0), currentPosition := (0, 0)
    currentBattery := 10, currentWeight := 0, route := [(0, 0)] }

/-- A pending parcel with an accepted route from `droneC5`. -/
def parcelC5 : Delivery :=
  { id := "p5", position := (0, 1), weight := 1, priority := 3
    timeWindowStart := 0, timeWindowEnd := 10
    assignedDrone := none, status := "pending" }

/-- A vehicle parked outside the 100×100 routing grid. -/
def droneC2 : Drone :=
  { id := "d2", maxWeight := 10, batteryCapacity := 10, speed := 1
    startPosition := (102, 0), currentPosition := (102, 0)
    currentBattery := 10, currentWeight := 0, route := [(102, 0)] }

/-- A parcel the router cannot reach from `droneC2`: every neighbour of
the out-of-bounds start cell is itself out of bounds. -/
def parcelC2 : Delivery :=
  { id := "p2", position := (0, 0), weight := 1, priority := 3
    timeWindowStart := 0, timeWindowEnd := 10
    assignedDrone := none, status := "pending" }

/-- The stream consumed by the genetic run with population size 1 and
zero generations: a single vehicle draw (headD yields 0). -/
def rngC2 : Rng := ⟨[]⟩

/-- A vehicle with only half a unit of energy, accepted by the greedy
planner for a route of length 1. -/
noncomputable def droneC1 : Drone :=
  { id := "e1", maxWeight := 10, batteryCapacity := 10, speed := 1
    startPosition := (0, 0), currentPosition := (0, 0)
    currentBattery := 1/2, currentWeight := 0, route := [(0, 0)] }

/-- A parcel one unit of distance from `droneC1`. -/
def parcelC1 : Delivery :=
  { id := "q1", position := (0, 1), weight := 1, priority := 3
    timeWindowStart := 0, timeWindowEnd := 10
    assignedDrone := none, status := "pending" }

/-- The delivery system holding `droneC1` and `parcelC1`. -/
noncomputable def sysC1 : DeliverySystem := ⟨[droneC1], [parcelC1], [], 0, (100, 100)⟩

/-- The per-vehicle property preserved by the whole pipeline: positive
speed and energy at most capacity. -/
def batteryOK (d : Drone) : Prop :=
  0 < d.speed ∧ d.currentBattery ≤ d.batteryCapacity

open Classical in
/-- The per-parcel body of `execute_deliveries`, named for the proofs
below (definitionally the inner fold function of `executeDeliveries`). -/
noncomputable def execInnerStep (router : AStarRouter) (zones : List NoFlyZone) (t : ℝ)
    (acc2 : Drone × List Delivery) (i : ℕ) : Drone × List Delivery :=
  let dl := acc2.2.getD i junkDelivery
  let path := router.findPath acc2.1.currentPosition dl.position acc2.1 zones t
  if path ≠ [] ∧ ¬ pathBlocked zones t path then
    (walkPath acc2.1 path, acc2.2.set i dl.markCompleted)
  else (acc2.1, acc2.2.set i dl.markFailed)

open Classical in
/-- The per-vehicle body of `execute_deliveries`. -/
noncomputable def execStep (router : AStarRouter) (zones : List NoFlyZone) (t : ℝ)
    (acc : List Drone × List Delivery) (p : String × List ℕ) :
    List Drone × List Delivery :=
  let d0 := (acc.1.find? fun dr => dr.id = p.1).getD junkDrone
  let (dF, dls') := p.2.foldl (execInnerStep router zones t) (d0, acc.2)
  (setFirstById p.1 dF acc.1, dls')

/-- The initial per-vehicle snapshot table of `solve_csp`, named for
the proofs below. -/
noncomputable def cspStates0 (drones : List Drone) (t : ℝ) : String → DroneState :=
  drones.foldl
    (fun f d => Function.update f d.id ⟨d.currentPosition, d.currentBattery, t, d.route⟩)
    (fun _ => junkDroneState)

/-- C9, counterexample: `assign_to_drone` moves the already-`Completed`
parcel `completedParcel` back to the non-terminal status
`"in_progress"`, so terminal states are not sticky under assignment. -/
theorem c9_counterexample :
    terminalStatus completedParcel.status ∧
      (completedParcel.assignToDrone "d2").status = "in_progress" ∧
      ¬ terminalStatus (completedParcel.assignToDrone "d2").status := by
  refine ⟨Or.inl rfl, rfl, ?_⟩
  rintro (h | h) <;> simp [Delivery.assignToDrone, completedParcel] at h

/-- C9, amended: the marking operations always leave a parcel in a
terminal status (in particular terminal states are sticky under them),
but `assign_to_drone` sets the status to `"in_progress"` regardless of
the previous status — terminal states are not sticky under a subsequent
assignment. -/
theorem c9_terminal_states :
    ∀ dl : Delivery,
      terminalStatus dl.markCompleted.status ∧
      terminalStatus dl.markFailed.status ∧
      ∀ id, (dl.assignToDrone id).status = "in_progress" := by
  intro dl
  exact ⟨Or.inl rfl, Or.inr rfl, fun _ => rfl⟩

/-- The point `(0, 1/2)` lies on the left edge of the square zone. -/
theorem boundary_half : onPolyBoundary unitSquareZone.polygonCoordinates (0, 1/2) := by
  refine ⟨((0, 1), (0, 0)), ?_, ?_⟩
  · simp [unitSquareZone, edges, List.rotate]
  · refine ⟨?_, ?_⟩ <;> norm_num [orient]

/-- C3, counterexample: the point `(0, 1/2)` lies exactly on the
boundary of `unitSquareZone`'s polygon, yet `contains_point` reports it
as *not* contained (shapely's `contains` tests the interior only). -/
theorem c3_counterexample :
    onPolyBoundary unitSquareZone.polygonCoordinates (0, 1/2) ∧
      ¬ unitSquareZone.containsPoint (0, 1/2) :=
  ⟨boundary_half, fun h => h.2 boundary_half⟩

/-- C3, amended: `contains_point` is an interior (open-set) predicate,
not a closed-set one: every point on a zone polygon's boundary is
reported as not contained, while interior points (such as the centre of
the square zone) are contained and exterior points are not. -/
theorem c3_contains_point_is_interior :
    (∀ (z : NoFlyZone) (p : Point),
        onPolyBoundary z.polygonCoordinates p → ¬ z.containsPoint p) ∧
    unitSquareZone.containsPoint (1/2, 1/2) ∧
    ¬ unitSquareZone.containsPoint (2, 1/2) := by
  refine ⟨?_, ⟨?_, ?_⟩, ?_⟩
  · rintro z p hb ⟨_, hnb⟩
    exact hnb hb
  · show rayParity unitSquareZone.polygonCoordinates (1/2, 1/2) = true
    have he : edges unitSquareZone.polygonCoordinates =
        [((0,0),(1,0)), ((1,0),(1,1)), ((1,1),(0,1)), ((0,1),(0,0))] := by
      simp [unitSquareZone, edges, List.rotate]
    rw [rayParity, he]
    have h1 : decide (crossesRay (1/2, 1/2) ((0,0),(1,0))) = false :=
      decide_eq_false (by norm_num [crossesRay])
    have h2 : decide (crossesRay (1/2, 1/2) ((1,0),(1,1))) = true :=
      decide_eq_true (by norm_num [crossesRay])
    have h3 : decide (crossesRay (1/2, 1/2) ((1,1),(0,1))) = false :=
      decide_eq_false (by norm_num [crossesRay])
    have h4 : decide (crossesRay (1/2, 1/2) ((0,1),(0,0))) = false :=
      decide_eq_false (by norm_num [crossesRay])
    simp only [List.foldl_cons, List.foldl_nil]
    rw [h1, h2, h3, h4]
    decide
  · rintro ⟨e, he, hseg⟩
    have he2 : edges unitSquareZone.polygonCoordinates =
        [((0,0),(1,0)), ((1,0),(1,1)), ((1,1),(0,1)), ((0,1),(0,0))] := by
      simp [unitSquareZone, edges, List.rotate]
    rw [he2] at he
    simp only [List.mem_cons, List.not_mem_nil, or_false] at he
    rcases he with rfl | rfl | rfl | rfl <;>
      · rcases hseg with ⟨horient, _⟩
        norm_num [orient] at horient
  · rintro ⟨hpar, _⟩
    have he : edges unitSquareZone.polygonCoordinates =
        [((0,0),(1,0)), ((1,0),(1,1)), ((1,1),(0,1)), ((0,1),(0,0))] := by
      simp [unitSquareZone, edges, List.rotate]
    rw [rayParity, he] at hpar
    have h1 : decide (crossesRay (2, 1/2) ((0,0),(1,0))) = false :=
      decide_eq_false (by norm_num [crossesRay])
    have h2 : decide (crossesRay (2, 1/2) ((1,0),(1,1))) = false :=
      decide_eq_false (by norm_num [crossesRay])
    have h3 : decide (crossesRay (2, 1/2) ((1,1),(0,1))) = false :=
      decide_eq_false (by norm_num [crossesRay])
    have h4 : decide (crossesRay (2, 1/2) ((0,1),(0,0))) = false :=
      decide_eq_false (by norm_num [crossesRay])
    simp only [List.foldl_cons, List.foldl_nil] at hpar
    rw [h1, h2, h3, h4] at hpar
    exact absurd hpar (by decide)

/-- C3, witness for the amended theorem: the boundary point `(0, 1/2)`
of the square zone is reported as not contained. -/
theorem c3_witness :
    ¬ unitSquareZone.containsPoint (0, 1/2) :=
  c3_contains_point_is_interior.1 unitSquareZone (0, 1/2) boundary_half

/-! ## A* search analysis

The goal of this section is an exact characterisation of when
`find_path` returns a non-empty path: precisely when the goal cell is
reachable from the start cell through in-bounds, unblocked grid steps.
This settles the router symmetry claim. -/

/-- `heappop` yields an element of the heap. -/
theorem popMin_mem {l : List HeapEntry} {e : HeapEntry} {rest : List HeapEntry}
    (h : popMin l = some (e, rest)) : e ∈ l := by
  induction l generalizing e rest with
  | nil => simp [popMin] at h
  | cons x xs ih =>
    rw [popMin] at h
    rcases hxs : popMin xs with _ | ⟨m, rest'⟩ <;> rw [hxs] at h <;> dsimp only at h
    · simp only [Option.some.injEq, Prod.mk.injEq] at h
      exact h.1 ▸ List.mem_cons_self x xs
    · split_ifs at h <;> simp only [Option.some.injEq, Prod.mk.injEq] at h
      · exact h.1 ▸ List.mem_cons_self x xs
      · exact List.mem_cons_of_mem x (ih (h.1 ▸ hxs))

/-- Everything left in the heap after a pop was in the heap before. -/
theorem popMin_rest_mem {l : List HeapEntry} {e : HeapEntry} {rest : List HeapEntry}
    (h : popMin l = some (e, rest)) : ∀ y ∈ rest, y ∈ l := by
  induction l generalizing e rest with
  | nil => simp [popMin] at h
  | cons x xs ih =>
    rw [popMin] at h
    rcases hxs : popMin xs with _ | ⟨m, rest'⟩ <;> rw [hxs] at h <;> dsimp only at h
    · simp only [Option.some.injEq, Prod.mk.injEq] at h
      rcases h with ⟨_, rfl⟩
      intro y hy; cases hy
    · split_ifs at h <;> simp only [Option.some.injEq, Prod.mk.injEq] at h
      · rcases h with ⟨_, rfl⟩
        exact fun y hy => List.mem_cons_of_mem x hy
      · rcases h with ⟨_, rfl⟩
        intro y hy
        rcases List.mem_cons.mp hy with rfl | hy'
        · exact List.mem_cons_self _ _
        · exact List.mem_cons_of_mem x (ih hxs y hy')

/-- The heap is empty exactly when `heappop` yields nothing. -/
theorem popMin_none_iff {l : List HeapEntry} : popMin l = none ↔ l = [] := by
  cases l with
  | nil => simp [popMin]
  | cons x xs =>
    rw [popMin]
    rcases hxs : popMin xs with _ | ⟨m, rest'⟩
    · simp
    · simp only [hxs]
      split_ifs <;> simp

/-- Every heap element is the popped one or remains in the rest. -/
theorem popMin_cover {l : List HeapEntry} {e : HeapEntry} {rest : List HeapEntry}
    (h : popMin l = some (e, rest)) : ∀ y ∈ l, y = e ∨ y ∈ rest := by
  induction l generalizing e rest with
  | nil => simp [popMin] at h
  | cons x xs ih =>
    rw [popMin] at h
    rcases hxs : popMin xs with _ | ⟨m, rest'⟩ <;> rw [hxs] at h <;> dsimp only at h
    · simp only [Option.some.injEq, Prod.mk.injEq] at h
      rcases h with ⟨rfl, rfl⟩
      intro y hy
      rcases List.mem_cons.mp hy with rfl | hy'
      · exact Or.inl rfl
      · rw [popMin_none_iff.mp hxs] at hy'
        cases hy'
    · split_ifs at h <;> simp only [Option.some.injEq, Prod.mk.injEq] at h
      · rcases h with ⟨rfl, rfl⟩
        intro y hy
        rcases List.mem_cons.mp hy with rfl | hy'
        · exact Or.inl rfl
        · exact Or.inr hy'
      · rcases h with ⟨rfl, rfl⟩
        intro y hy
        rcases List.mem_cons.mp hy with rfl | hy'
        · exact Or.inr (List.mem_cons_self _ _)
        · rcases ih hxs y hy' with rfl | hy''
          · exact Or.inl rfl
          · exact Or.inr (List.mem_cons_of_mem x hy'')

/-- A pop shrinks the heap by exactly one entry. -/
theorem popMin_length {l : List HeapEntry} {e : HeapEntry} {rest : List HeapEntry}
    (h : popMin l = some (e, rest)) : rest.length + 1 = l.length := by
  induction l generalizing e rest with
  | nil => simp [popMin] at h
  | cons x xs ih =>
    rw [popMin] at h
    rcases hxs : popMin xs with _ | ⟨m, rest'⟩ <;> rw [hxs] at h <;> dsimp only at h
    · simp only [Option.some.injEq, Prod.mk.injEq] at h
      rcases h with ⟨_, rfl⟩
      simp [popMin_none_iff.mp hxs]
    · split_ifs at h <;> simp only [Option.some.injEq, Prod.mk.injEq] at h
      · rcases h with ⟨_, rfl⟩
        simp
      · rcases h with ⟨_, rfl⟩
        simpa using ih hxs

/-- Orientation is antisymmetric in its first two arguments. -/
theorem orient_swap (a b c : Point) : orient b a c = -orient a b c := by
  unfold orient; ring

/-- Segment membership does not depend on the direction of the segment. -/
theorem onSeg_swap (a b p : Point) : onSeg b a p ↔ onSeg a b p := by
  unfold onSeg
  rw [orient_swap, neg_eq_zero, min_comm b.1, max_comm b.1, min_comm b.2, max_comm b.2]

/-- Segment–segment intersection does not depend on the direction of the
first segment. -/
theorem segSeg_swap (p1 p2 p3 p4 : Point) : segSeg p2 p1 p3 p4 ↔ segSeg p1 p2 p3 p4 := by
  simp only [segSeg, orient_swap p1 p2 p3, orient_swap p1 p2 p4, onSeg_swap p1 p2 p3,
    onSeg_swap p1 p2 p4, neg_eq_zero, neg_pos, neg_lt_zero]
  constructor
  · rintro (⟨h1, h2⟩ | h | h | h | h)
    · refine Or.inl ⟨?_, ?_⟩
      · rcases h1 with ⟨a, b⟩ | ⟨a, b⟩
        · exact Or.inr ⟨b, a⟩
        · exact Or.inl ⟨b, a⟩
      · rcases h2 with ⟨a, b⟩ | ⟨a, b⟩
        · exact Or.inr ⟨a, b⟩
        · exact Or.inl ⟨a, b⟩
    · exact Or.inr (Or.inr (Or.inl h))
    · exact Or.inr (Or.inl h)
    · exact Or.inr (Or.inr (Or.inr (Or.inl h)))
    · exact Or.inr (Or.inr (Or.inr (Or.inr h)))
  · rintro (⟨h1, h2⟩ | h | h | h | h)
    · refine Or.inl ⟨?_, ?_⟩
      · rcases h1 with ⟨a, b⟩ | ⟨a, b⟩
        · exact Or.inr ⟨b, a⟩
        · exact Or.inl ⟨b, a⟩
      · rcases h2 with ⟨a, b⟩ | ⟨a, b⟩
        · exact Or.inr ⟨a, b⟩
        · exact Or.inl ⟨a, b⟩
    · exact Or.inr (Or.inr (Or.inl h))
    · exact Or.inr (Or.inl h)
    · exact Or.inr (Or.inr (Or.inr (Or.inl h)))
    · exact Or.inr (Or.inr (Or.inr (Or.inr h)))

/-- Segment–polygon intersection does not depend on the direction of the
segment. -/
theorem segIntersectsPoly_swap (a b : Point) (vs : List Point) :
    segIntersectsPoly b a vs ↔ segIntersectsPoly a b vs := by
  unfold segIntersectsPoly
  constructor
  · rintro (⟨e, he, hs⟩ | h | h)
    · exact Or.inl ⟨e, he, (segSeg_swap a b e.1 e.2).mp hs⟩
    · exact Or.inr (Or.inr h)
    · exact Or.inr (Or.inl h)
  · rintro (⟨e, he, hs⟩ | h | h)
    · exact Or.inl ⟨e, he, (segSeg_swap a b e.1 e.2).mpr hs⟩
    · exact Or.inr (Or.inr h)
    · exact Or.inr (Or.inl h)

/-- Membership characterisation of the neighbour list. -/
theorem mem_getNeighbors {r : AStarRouter} {u v : Node} :
    v ∈ r.getNeighbors u ↔ (v.1 - u.1, v.2 - u.2) ∈ dirs ∧ r.inBounds v := by
  unfold AStarRouter.getNeighbors
  simp only [List.mem_filterMap]
  constructor
  · rintro ⟨d, hd, hv⟩
    split_ifs at hv with hb
    cases hv
    exact ⟨by simpa using hd, hb⟩
  · rintro ⟨hd, hb⟩
    refine ⟨(v.1 - u.1, v.2 - u.2), hd, ?_⟩
    have hv : (u.1 + (v.1 - u.1), u.2 + (v.2 - u.2)) = v := by
      cases v
      simp only [Prod.mk.injEq]
      constructor <;> ring
    rw [hv]
    simp [hb]

/-- Neighbours are in bounds. -/
theorem getNeighbors_inBounds {r : AStarRouter} {u v : Node}
    (h : v ∈ r.getNeighbors u) : r.inBounds v :=
  (mem_getNeighbors.mp h).2

/-- The direction set is closed under negation, so in-bounds cells see
each other symmetrically. -/
theorem getNeighbors_symm {r : AStarRouter} {u v : Node}
    (hu : r.inBounds u) (h : v ∈ r.getNeighbors u) : u ∈ r.getNeighbors v := by
  rcases mem_getNeighbors.mp h with ⟨hd, _⟩
  refine mem_getNeighbors.mpr ⟨?_, hu⟩
  have hneg : ∀ d ∈ dirs, (-d.1, -d.2) ∈ dirs := by decide
  have heq : (u.1 - v.1, u.2 - v.2) =
      (-(v.1 - u.1, v.2 - u.2).1, -(v.1 - u.1, v.2 - u.2).2) := by
    simp only [Prod.mk.injEq]
    constructor <;> ring
  rw [heq]
  exact hneg _ hd

/-- The neighbour list never exceeds eight entries. -/
theorem getNeighbors_length_le (r : AStarRouter) (u : Node) :
    (r.getNeighbors u).length ≤ 8 := by
  have := List.length_filterMap_le
    (fun d : ℤ × ℤ =>
      let n := (u.1 + d.1, u.2 + d.2)
      if r.inBounds n then some n else none) dirs
  simpa [AStarRouter.getNeighbors, dirs] using this

/-- Valid steps out of an in-bounds cell can be reversed. -/
theorem validEdge_symm {r : AStarRouter} {zones : List NoFlyZone} {t : ℝ} {u v : Node}
    (hu : r.inBounds u) (h : validEdge r zones t u v) : validEdge r zones t v u := by
  rcases h with ⟨hn, hm⟩
  refine ⟨getNeighbors_symm hu hn, ?_⟩
  intro z hz hact hint
  exact hm z hz hact ((segIntersectsPoly_swap _ _ _).mp hint)

/-- Every cell reachable from `u` is `u` itself or in bounds. -/
theorem reaches_inBounds {r : AStarRouter} {zones : List NoFlyZone} {t : ℝ} {u v : Node}
    (h : Reaches r zones t u v) : v = u ∨ r.inBounds v := by
  induction h with
  | refl => exact Or.inl rfl
  | tail _ hedge _ => exact Or.inr (getNeighbors_inBounds hedge.1)

/-- Reachability from an in-bounds cell is symmetric. -/
theorem reaches_symm {r : AStarRouter} {zones : List NoFlyZone} {t : ℝ} {u v : Node}
    (hu : r.inBounds u) (h : Reaches r zones t u v) : Reaches r zones t v u := by
  induction h with
  | refl => exact Relation.ReflTransGen.refl
  | tail hub hedge ih =>
    rename_i b c
    have hb : r.inBounds b := by
      rcases reaches_inBounds hub with rfl | hb
      · exact hu
      · exact hb
    exact Relation.ReflTransGen.head (validEdge_symm hb hedge) ih

/-- Exhaustive description of one `expandNeighbor` call: either the
state is unchanged (closed neighbour, blocked move, or no strict
`g_score` improvement), or a strictly improving push happened. -/
theorem expandNeighbor_cases (r : AStarRouter) (zones : List NoFlyZone) (t : ℝ)
    (goalG current : Node) (st : AState) (nb : Node) :
    (expandNeighbor r zones t goalG current st nb = st ∧
      (nb ∈ st.closed ∨ ¬ r.isValidMove nb zones t current ∨
        ∃ gnb, st.gScore nb = some gnb ∧
          gnb ≤ (st.gScore current).getD 0 + gridDist current nb)) ∨
    (nb ∉ st.closed ∧ r.isValidMove nb zones t current ∧
      (∀ gnb, st.gScore nb = some gnb →
        (st.gScore current).getD 0 + gridDist current nb < gnb) ∧
      expandNeighbor r zones t goalG current st nb =
        { st with
          cameFrom := Function.update st.cameFrom nb (some current)
          gScore := Function.update st.gScore nb
            (some ((st.gScore current).getD 0 + gridDist current nb))
          openL := st.openL ++
            [((st.gScore current).getD 0 + gridDist current nb
                + r.heuristic nb goalG zones t, st.counter, nb)]
          counter := st.counter + 1 }) := by
  unfold expandNeighbor
  dsimp only
  split_ifs with h1 h2
  · rcases h1 with h | h
    · exact Or.inl ⟨rfl, Or.inl h⟩
    · exact Or.inl ⟨rfl, Or.inr (Or.inl h)⟩
  · push_neg at h1
    exact Or.inr ⟨h1.1, h1.2, h2, rfl⟩
  · push_neg at h2
    rcases h2 with ⟨gnb, hgnb, hle⟩
    exact Or.inl ⟨rfl, Or.inr (Or.inr ⟨gnb, hgnb, hle⟩)⟩

/-- One expansion step never touches the closed set. -/
theorem expandNeighbor_closed (r : AStarRouter) (zones : List NoFlyZone) (t : ℝ)
    (goalG current : Node) (st : AState) (nb : Node) :
    (expandNeighbor r zones t goalG current st nb).closed = st.closed := by
  rcases expandNeighbor_cases r zones t goalG current st nb with ⟨heq, _⟩ | ⟨_, _, _, heq⟩ <;>
    rw [heq]

/-- How one expansion step can change a `g_score` entry. -/
theorem expandNeighbor_gScore (r : AStarRouter) (zones : List NoFlyZone) (t : ℝ)
    (goalG current : Node) (st : AState) (nb v : Node) :
    (expandNeighbor r zones t goalG current st nb).gScore v = st.gScore v ∨
    (v = nb ∧ v ∉ st.closed ∧
      (expandNeighbor r zones t goalG current st nb).gScore v =
        some ((st.gScore current).getD 0 + gridDist current nb) ∧
      (∀ gnb, st.gScore nb = some gnb →
        (st.gScore current).getD 0 + gridDist current nb < gnb)) := by
  rcases expandNeighbor_cases r zones t goalG current st nb with ⟨heq, _⟩ | ⟨hnb, _, himp, heq⟩
  · rw [heq]; exact Or.inl rfl
  · by_cases hv : v = nb
    · subst hv
      refine Or.inr ⟨rfl, hnb, ?_, himp⟩
      rw [heq]
      simp
    · rw [heq]
      exact Or.inl (Function.update_noteq hv _ _)

/-- How one expansion step can change the frontier. -/
theorem expandNeighbor_openL (r : AStarRouter) (zones : List NoFlyZone) (t : ℝ)
    (goalG current : Node) (st : AState) (nb : Node) :
    ∃ extra : List HeapEntry,
      (expandNeighbor r zones t goalG current st nb).openL = st.openL ++ extra ∧
      extra.length ≤ 1 ∧
      ∀ e ∈ extra, e.2.2 = nb ∧ r.isValidMove nb zones t current ∧
        ((expandNeighbor r zones t goalG current st nb).gScore nb).isSome := by
  rcases expandNeighbor_cases r zones t goalG current st nb with ⟨heq, _⟩ | ⟨_, hvm, _, heq⟩
  · refine ⟨[], by simp [heq], by simp, by simp⟩
  · refine ⟨[((st.gScore current).getD 0 + gridDist current nb
        + r.heuristic nb goalG zones t, st.counter, nb)], by rw [heq], by simp, ?_⟩
    intro e he
    rcases List.mem_singleton.mp he with rfl
    refine ⟨rfl, hvm, ?_⟩
    rw [heq]
    simp

/-- The expansion loop never touches the closed set. -/
theorem foldExpand_closed (r : AStarRouter) (zones : List NoFlyZone) (t : ℝ)
    (goalG current : Node) :
    ∀ (ns : List Node) (st : AState),
      (ns.foldl (expandNeighbor r zones t goalG current) st).closed = st.closed := by
  intro ns
  induction ns with
  | nil => intro st; rfl
  | cons nb rest ih =>
    intro st
    rw [List.foldl_cons, ih, expandNeighbor_closed]

/-- Existing `g_score` entries survive the expansion loop and never
increase. -/
theorem foldExpand_gMono (r : AStarRouter) (zones : List NoFlyZone) (t : ℝ)
    (goalG current : Node) :
    ∀ (ns : List Node) (st : AState) (v : Node) (gv : ℝ),
      st.gScore v = some gv →
      ∃ gv', (ns.foldl (expandNeighbor r zones t goalG current) st).gScore v = some gv' ∧
        gv' ≤ gv := by
  intro ns
  induction ns with
  | nil => exact fun st v gv h => ⟨gv, h, le_refl gv⟩
  | cons nb rest ih =>
    intro st v gv hv
    rw [List.foldl_cons]
    rcases expandNeighbor_gScore r zones t goalG current st nb v with heq | ⟨rfl, _, heq, himp⟩
    · rcases ih _ v gv (heq.trans hv) with ⟨gv', hg', hle'⟩
      exact ⟨gv', hg', hle'⟩
    · have hlt := himp gv hv
      rcases ih _ v _ heq with ⟨gv', hg', hle'⟩
      exact ⟨gv', hg', le_trans hle' (le_of_lt hlt)⟩

/-- The expansion loop never changes the `g_score` of a closed cell. -/
theorem foldExpand_gClosed (r : AStarRouter) (zones : List NoFlyZone) (t : ℝ)
    (goalG current : Node) :
    ∀ (ns : List Node) (st : AState) (v : Node), v ∈ st.closed →
      (ns.foldl (expandNeighbor r zones t goalG current) st).gScore v = st.gScore v := by
  intro ns
  induction ns with
  | nil => intro st v _; rfl
  | cons nb rest ih =>
    intro st v hv
    rw [List.foldl_cons]
    have hcl : v ∈ (expandNeighbor r zones t goalG current st nb).closed := by
      rw [expandNeighbor_closed]; exact hv
    rw [ih _ v hcl]
    rcases expandNeighbor_gScore r zones t goalG current st nb v with heq | ⟨rfl, habs, _, _⟩
    · exact heq
    · exact absurd hv habs

/-- The expansion loop only appends to the frontier; every new entry is
a valid, keyed neighbour, and every new `g_score` key was pushed. -/
theorem foldExpand_open (r : AStarRouter) (zones : List NoFlyZone) (t : ℝ)
    (goalG current : Node) :
    ∀ (ns : List Node) (st : AState),
      ∃ extra : List HeapEntry,
        (ns.foldl (expandNeighbor r zones t goalG current) st).openL =
          st.openL ++ extra ∧
        extra.length ≤ ns.length ∧
        (∀ e ∈ extra, e.2.2 ∈ ns ∧ r.isValidMove e.2.2 zones t current ∧
          ((ns.foldl (expandNeighbor r zones t goalG current) st).gScore e.2.2).isSome) ∧
        (∀ v, ((ns.foldl (expandNeighbor r zones t goalG current) st).gScore v).isSome →
          (st.gScore v).isSome ∨ ∃ e ∈ extra, e.2.2 = v) := by
  intro ns
  induction ns with
  | nil =>
    intro st
    exact ⟨[], by simp, by simp, by simp, fun v hv => Or.inl hv⟩
  | cons nb rest ih =>
    intro st
    rw [List.foldl_cons]
    rcases expandNeighbor_cases r zones t goalG current st nb with ⟨heq, _⟩ | ⟨hnb, hvm, _, heq⟩
    · rw [heq]
      rcases ih st with ⟨extra, h1, h2, h3, h4⟩
      refine ⟨extra, h1, le_trans h2 (Nat.le_succ _), ?_, h4⟩
      intro e he
      rcases h3 e he with ⟨hmem, hv, hg⟩
      exact ⟨List.mem_cons_of_mem _ hmem, hv, hg⟩
    · rcases ih (expandNeighbor r zones t goalG current st nb) with ⟨extra, h1, h2, h3, h4⟩
      have hopen : (expandNeighbor r zones t goalG current st nb).openL =
          st.openL ++ [((st.gScore current).getD 0 + gridDist current nb
            + r.heuristic nb goalG zones t, st.counter, nb)] := by
        rw [heq]
      have hgnb : (expandNeighbor r zones t goalG current st nb).gScore nb =
          some ((st.gScore current).getD 0 + gridDist current nb) := by
        rw [heq]; simp
      refine ⟨((st.gScore current).getD 0 + gridDist current nb
          + r.heuristic nb goalG zones t, st.counter, nb) :: extra, ?_, ?_, ?_, ?_⟩
      · rw [h1, hopen]
        simp
      · simpa using Nat.succ_le_succ h2
      · intro e he
        rcases List.mem_cons.mp he with rfl | he'
        · refine ⟨List.mem_cons_self _ _, hvm, ?_⟩
          rcases foldExpand_gMono r zones t goalG current rest _ nb _ hgnb with ⟨gv', hg', _⟩
          simp [hg']
        · rcases h3 e he' with ⟨hmem, hv, hg⟩
          exact ⟨List.mem_cons_of_mem _ hmem, hv, hg⟩
      · intro v hv
        rcases h4 v hv with hsome | ⟨e, he, hev⟩
        · rw [heq] at hsome
          by_cases hvnb : v = nb
          · subst hvnb
            exact Or.inr ⟨_, List.mem_cons_self _ _, rfl⟩
          · refine Or.inl ?_
            simpa [Function.update_noteq hvnb] using hsome
        · exact Or.inr ⟨e, List.mem_cons_of_mem _ he, hev⟩

/-- After the expansion of `current`, every valid neighbour is closed or
carries a `g_score` no worse than `g(current)` plus the step cost. -/
theorem foldExpand_cover (r : AStarRouter) (zones : List NoFlyZone) (t : ℝ)
    (goalG current : Node) (gc : ℝ) :
    ∀ (ns : List Node) (st : AState), current ∈ st.closed →
      st.gScore current = some gc →
      ∀ v ∈ ns, r.isValidMove v zones t current →
        v ∈ st.closed ∨
          ∃ gv, ((ns.foldl (expandNeighbor r zones t goalG current) st).gScore v) = some gv ∧
            gv ≤ gc + gridDist current v := by
  intro ns
  induction ns with
  | nil => intro st _ _ v hv; cases hv
  | cons nb rest ih =>
    intro st hc hgc v hv hvm
    have hc1 : current ∈ (expandNeighbor r zones t goalG current st nb).closed := by
      rw [expandNeighbor_closed]; exact hc
    have hgc1 : (expandNeighbor r zones t goalG current st nb).gScore current = some gc := by
      rcases expandNeighbor_gScore r zones t goalG current st nb current with heq | ⟨_, habs, _, _⟩
      · rw [heq, hgc]
      · exact absurd hc habs
    rw [List.foldl_cons]
    rcases List.mem_cons.mp hv with rfl | hvrest
    · rcases expandNeighbor_cases r zones t goalG current st v with ⟨heq, hdis⟩ | ⟨_, _, _, heq⟩
      · rcases hdis with hcl | hnv | ⟨gnb, hgnb, hle⟩
        · exact Or.inl hcl
        · exact absurd hvm hnv
        · rw [heq]
          rcases foldExpand_gMono r zones t goalG current rest st v gnb hgnb with ⟨gv', hg', hle'⟩
          refine Or.inr ⟨gv', hg', le_trans hle' ?_⟩
          rw [hgc] at hle
          simpa using hle
      · have hgv : (expandNeighbor r zones t goalG current st v).gScore v =
            some ((st.gScore current).getD 0 + gridDist current v) := by
          rw [heq]; simp
        rcases foldExpand_gMono r zones t goalG current rest _ v _ hgv with ⟨gv', hg', hle'⟩
        refine Or.inr ⟨gv', hg', le_trans hle' ?_⟩
        rw [hgc]
        simp
    · rcases ih _ hc1 hgc1 v hvrest hvm with hcl | hex
      · rw [expandNeighbor_closed] at hcl
        exact Or.inl hcl
      · exact Or.inr hex

/-- Re-expanding an already closed `current` (a stale heap entry) is a
no-op: no push and no state change at all. -/
theorem foldExpand_stale (r : AStarRouter) (zones : List NoFlyZone) (t : ℝ)
    (goalG current : Node) (gc : ℝ) :
    ∀ (ns : List Node) (st : AState), current ∈ st.closed →
      st.gScore current = some gc →
      (∀ v ∈ ns, r.isValidMove v zones t current →
        v ∈ st.closed ∨ ∃ gv, st.gScore v = some gv ∧ gv ≤ gc + gridDist current v) →
      ns.foldl (expandNeighbor r zones t goalG current) st = st := by
  intro ns
  induction ns with
  | nil => intro st _ _ _; rfl
  | cons nb rest ih =>
    intro st hc hgc hcov
    have hstep : expandNeighbor r zones t goalG current st nb = st := by
      rcases expandNeighbor_cases r zones t goalG current st nb with ⟨heq, _⟩ | ⟨hnb, hvm, himp, _⟩
      · exact heq
      · rcases hcov nb (List.mem_cons_self _ _) hvm with hcl | ⟨gv, hgv, hle⟩
        · exact absurd hcl hnb
        · have := himp gv hgv
          rw [hgc] at this
          simp only [Option.getD_some] at this
          exact absurd hle (not_le.mpr this)
    rw [List.foldl_cons, hstep]
    exact ih st hc hgc fun v hv hvm => hcov v (List.mem_cons_of_mem _ hv) hvm

/-- Start-or-in-bounds cells belong to `okFin`. -/
theorem mem_okFin {r : AStarRouter} {startG v : Node}
    (h : v = startG ∨ r.inBounds v) : v ∈ okFin r startG := by
  rcases h with rfl | hb
  · exact Finset.mem_insert_self _ _
  · refine Finset.mem_insert_of_mem ?_
    rcases hb with ⟨h1, h2, h3, h4⟩
    exact Finset.mem_product.mpr ⟨Finset.mem_Ico.mpr ⟨h1, h2⟩, Finset.mem_Ico.mpr ⟨h3, h4⟩⟩

/-- Cardinality bound for `okFin`. -/
theorem okFin_card (r : AStarRouter) (startG : Node) :
    (okFin r startG).card ≤ r.gridSize.1.toNat * r.gridSize.2.toNat + 1 := by
  refine le_trans (Finset.card_insert_le _ _) ?_
  have hcard : ((Finset.Ico (0:ℤ) r.gridSize.1) ×ˢ (Finset.Ico (0:ℤ) r.gridSize.2)).card
      = r.gridSize.1.toNat * r.gridSize.2.toNat := by
    rw [Finset.card_product, Int.card_Ico, Int.card_Ico]
    simp
  omega

/-- One non-returning iteration of the search loop preserves the
invariant, strictly decreases the measure, and keeps every previously
seen node in view (closed or still on the frontier). -/
theorem inv_step {r : AStarRouter} {zones : List NoFlyZone} {t : ℝ}
    {startG goalG : Node} {st : AState} {e : HeapEntry} {rest : List HeapEntry}
    (hInv : Inv r zones t startG goalG st)
    (hpop : popMin st.openL = some (e, rest))
    (hgoal : e.2.2 ≠ goalG) :
    Inv r zones t startG goalG
      (expandAll r zones t goalG e.2.2
        { st with openL := rest, closed := insert e.2.2 st.closed }) ∧
    astarMeasure r startG
        (expandAll r zones t goalG e.2.2
          { st with openL := rest, closed := insert e.2.2 st.closed }) + 1 ≤
      astarMeasure r startG st ∧
    ∀ x, (x ∈ st.closed ∨ x ∈ openNodes st) →
      x ∈ (expandAll r zones t goalG e.2.2
          { st with openL := rest, closed := insert e.2.2 st.closed }).closed ∨
        x ∈ openNodes (expandAll r zones t goalG e.2.2
          { st with openL := rest, closed := insert e.2.2 st.closed }) := by
  have hemem : e ∈ st.openL := popMin_mem hpop
  have hrest : ∀ y ∈ rest, y ∈ st.openL := popMin_rest_mem hpop
  have hcover := popMin_cover hpop
  have hlen := popMin_length hpop
  obtain ⟨gc, hgc⟩ : ∃ gc, st.gScore e.2.2 = some gc :=
    Option.isSome_iff_exists.mp (hInv.openG e hemem)
  set cur := e.2.2 with hcur
  set st1 : AState := { st with openL := rest, closed := insert cur st.closed } with hst1
  have hst1closed : st1.closed = insert cur st.closed := rfl
  have hst1g : st1.gScore = st.gScore := rfl
  have hst1open : st1.openL = rest := rfl
  have hcur1 : cur ∈ st1.closed := Finset.mem_insert_self _ _
  have hgc1 : st1.gScore cur = some gc := hgc
  by_cases hstale : cur ∈ st.closed
  · -- stale pop: the expansion is a no-op
    have hins : insert cur st.closed = st.closed := Finset.insert_eq_self.mpr hstale
    have hcov : ∀ v ∈ r.getNeighbors cur, r.isValidMove v zones t cur →
        v ∈ st1.closed ∨ ∃ gv, st1.gScore v = some gv ∧ gv ≤ gc + gridDist cur v := by
      intro v hvn hvm
      rcases hInv.closure cur hstale v ⟨hvn, hvm⟩ with hcl | ⟨gv, gu, hgv, hgu, hle⟩
      · rw [hst1closed, hins]; exact Or.inl hcl
      · rw [hgc] at hgu
        cases hgu
        exact Or.inr ⟨gv, hgv, hle⟩
    have hnoop : expandAll r zones t goalG cur st1 = st1 :=
      foldExpand_stale r zones t goalG cur gc _ st1 hcur1 hgc1 hcov
    rw [hnoop]
    refine ⟨?_, ?_, ?_⟩
    · refine ⟨?_, ?_, ?_, ?_, ?_, ?_, ?_, ?_⟩
      · intro v hv
        rcases hInv.gOpen v hv with hcl | hop
        · exact Or.inl (by rw [hst1closed, hins]; exact hcl)
        · rcases List.mem_map.mp hop with ⟨e', he', hev⟩
          rcases hcover e' he' with rfl | he''
          · exact Or.inl (hev ▸ hcur1)
          · exact Or.inr (List.mem_map.mpr ⟨e', he'', hev⟩)
      · intro u hu v hedge
        rw [hst1closed, hins] at hu ⊢
        exact hInv.closure u hu v hedge
      · intro e' he'
        exact hInv.openOK e' (hrest e' he')
      · intro v hv
        rw [hst1closed, hins] at hv
        exact hInv.closedOK v hv
      · rw [hst1closed, hins]
        exact hInv.goalNotClosed
      · intro e' he'
        exact hInv.openG e' (hrest e' he')
      · intro v hv
        rw [hst1closed, hins] at hv
        exact hInv.closedG v hv
      · intro e' he'
        exact hInv.openReach e' (hrest e' he')
    · unfold astarMeasure
      rw [hst1open, hst1closed, hins]
      omega
    · intro x hx
      rcases hx with hcl | hop
      · exact Or.inl (by rw [hst1closed, hins]; exact hcl)
      · rcases List.mem_map.mp hop with ⟨e', he', hev⟩
        rcases hcover e' he' with rfl | he''
        · exact Or.inl (hev ▸ hcur1)
        · exact Or.inr (List.mem_map.mpr ⟨e', he'', hev⟩)
  · -- fresh pop: `cur` is newly closed and expanded
    have hcl2 : (expandAll r zones t goalG cur st1).closed = insert cur st.closed :=
      foldExpand_closed r zones t goalG cur _ st1
    obtain ⟨extra, hoeq0, hlenx, hprops0, hnew0⟩ :=
      foldExpand_open r zones t goalG cur (r.getNeighbors cur) st1
    have hoeq : (expandAll r zones t goalG cur st1).openL = st1.openL ++ extra := hoeq0
    have hprops : ∀ e ∈ extra, e.2.2 ∈ r.getNeighbors cur ∧
        r.isValidMove e.2.2 zones t cur ∧
        ((expandAll r zones t goalG cur st1).gScore e.2.2).isSome := hprops0
    have hnew : ∀ v, ((expandAll r zones t goalG cur st1).gScore v).isSome →
        (st1.gScore v).isSome ∨ ∃ e ∈ extra, e.2.2 = v := hnew0
    have hfroz : ∀ v ∈ st1.closed,
        (expandAll r zones t goalG cur st1).gScore v = st.gScore v :=
      fun v hv => foldExpand_gClosed r zones t goalG cur _ st1 v hv
    have hcov2 := foldExpand_cover r zones t goalG cur gc (r.getNeighbors cur) st1 hcur1 hgc1
    have hmono : ∀ v gv, st.gScore v = some gv →
        ∃ gv', (expandAll r zones t goalG cur st1).gScore v = some gv' ∧ gv' ≤ gv :=
      fun v gv hv => foldExpand_gMono r zones t goalG cur _ st1 v gv hv
    have hopen2 : (expandAll r zones t goalG cur st1).openL = rest ++ extra := by
      rw [hoeq, hst1open]
    refine ⟨?_, ?_, ?_⟩
    · refine ⟨?_, ?_, ?_, ?_, ?_, ?_, ?_, ?_⟩
      · -- gOpen
        intro v hv
        rcases hnew v hv with hsome | ⟨e', he', hev⟩
        · rcases hInv.gOpen v hsome with hcl | hop
          · exact Or.inl (by rw [hcl2]; exact Finset.mem_insert_of_mem hcl)
          · rcases List.mem_map.mp hop with ⟨e'', he'', hev'⟩
            rcases hcover e'' he'' with rfl | he3
            · exact Or.inl (by rw [hcl2]; exact hev' ▸ Finset.mem_insert_self _ _)
            · refine Or.inr (List.mem_map.mpr ⟨e'', ?_, hev'⟩)
              rw [hopen2]
              exact List.mem_append_left _ he3
        · refine Or.inr (List.mem_map.mpr ⟨e', ?_, hev⟩)
          rw [hopen2]
          exact List.mem_append_right _ he'
      · -- closure
        intro u hu v hedge
        rw [hcl2] at hu
        rcases Finset.mem_insert.mp hu with rfl | hu'
        · rcases hcov2 v hedge.1 hedge.2 with hcl | ⟨gv, hgv, hle⟩
          · exact Or.inl (by rw [hcl2]; rw [hst1closed] at hcl; exact hcl)
          · refine Or.inr ⟨gv, gc, hgv, ?_, hle⟩
            rw [hfroz cur hcur1]
            exact hgc
        · rcases hInv.closure u hu' v hedge with hcl | ⟨gv, gu, hgv, hgu, hle⟩
          · exact Or.inl (by rw [hcl2]; exact Finset.mem_insert_of_mem hcl)
          · rcases hmono v gv hgv with ⟨gv', hgv', hle'⟩
            refine Or.inr ⟨gv', gu, hgv', ?_, le_trans hle' hle⟩
            rw [hfroz u (Finset.mem_insert_of_mem hu')]
            exact hgu
      · -- openOK
        intro e' he'
        rw [hopen2] at he'
        rcases List.mem_append.mp he' with he1 | he1
        · exact hInv.openOK e' (hrest e' he1)
        · exact Or.inr (getNeighbors_inBounds (hprops e' he1).1)
      · -- closedOK
        intro v hv
        rw [hcl2] at hv
        rcases Finset.mem_insert.mp hv with rfl | hv'
        · exact hInv.openOK e hemem
        · exact hInv.closedOK v hv'
      · -- goalNotClosed
        rw [hcl2]
        intro hg
        rcases Finset.mem_insert.mp hg with h | h
        · exact hgoal h.symm
        · exact hInv.goalNotClosed h
      · -- openG
        intro e' he'
        rw [hopen2] at he'
        rcases List.mem_append.mp he' with he1 | he1
        · obtain ⟨gv, hgv⟩ := Option.isSome_iff_exists.mp (hInv.openG e' (hrest e' he1))
          rcases hmono _ gv hgv with ⟨gv', hgv', _⟩
          exact Option.isSome_iff_exists.mpr ⟨gv', hgv'⟩
        · exact (hprops e' he1).2.2
      · -- closedG
        intro v hv
        rw [hcl2] at hv
        rcases Finset.mem_insert.mp hv with rfl | hv'
        · rw [hfroz cur hcur1, hgc]; rfl
        · rw [hfroz v (Finset.mem_insert_of_mem hv')]
          exact hInv.closedG v hv'
      · -- openReach
        intro e' he'
        rw [hopen2] at he'
        rcases List.mem_append.mp he' with he1 | he1
        · exact hInv.openReach e' (hrest e' he1)
        · rcases hprops e' he1 with ⟨hmem, hvm, _⟩
          exact Relation.ReflTransGen.tail (hInv.openReach e hemem) ⟨hmem, hvm⟩
    · -- measure strictly decreases
      have hsub : (expandAll r zones t goalG cur st1).closed ⊆ okFin r startG := by
        intro v hv
        rw [hcl2] at hv
        rcases Finset.mem_insert.mp hv with rfl | hv'
        · exact mem_okFin (hInv.openOK e hemem)
        · exact mem_okFin (hInv.closedOK v hv')
      have hcard2 : (expandAll r zones t goalG cur st1).closed.card =
          st.closed.card + 1 := by
        rw [hcl2, Finset.card_insert_of_not_mem hstale]
      have hcardle : st.closed.card + 1 ≤ (okFin r startG).card := by
        rw [← hcard2]
        exact Finset.card_le_card hsub
      have hlen8 : extra.length ≤ 8 :=
        le_trans hlenx (getNeighbors_length_le r cur)
      have hol : (expandAll r zones t goalG cur st1).openL.length =
          rest.length + extra.length := by
        rw [hopen2, List.length_append]
      unfold astarMeasure
      rw [hol, hcard2]
      omega
    · -- previously seen nodes stay in view
      intro x hx
      rcases hx with hcl | hop
      · exact Or.inl (by rw [hcl2]; exact Finset.mem_insert_of_mem hcl)
      · rcases List.mem_map.mp hop with ⟨e', he', hev⟩
        rcases hcover e' he' with rfl | he''
        · exact Or.inl (by rw [hcl2]; exact hev ▸ Finset.mem_insert_self _ _)
        · refine Or.inr (List.mem_map.mpr ⟨e', ?_, hev⟩)
          rw [hopen2]
          exact List.mem_append_left _ he''

/-- Soundness of the search loop: a non-empty result means the goal
cell is reachable from the start cell. -/
theorem loop_sound {r : AStarRouter} {zones : List NoFlyZone} {t : ℝ}
    {start : Point} {startG goalG : Node} :
    ∀ (n : ℕ) (st : AState), Inv r zones t startG goalG st →
      astarLoop r zones t start goalG n st ≠ [] →
      Reaches r zones t startG goalG := by
  intro n
  induction n with
  | zero => intro st _ h; exact absurd rfl h
  | succ n ih =>
    intro st hInv h
    rw [astarLoop] at h
    rcases hpop : popMin st.openL with _ | ⟨e, rest⟩ <;> rw [hpop] at h
    · exact absurd rfl h
    · dsimp only at h
      by_cases hg : e.2.2 = goalG
      · exact hg ▸ hInv.openReach e (popMin_mem hpop)
      · rw [if_neg hg] at h
        exact ih _ (inv_step hInv hpop hg).1 h

/-- Completeness of the search loop: with enough fuel (more than the
measure), if the goal is reachable from any node in view, the loop
returns a non-empty path. -/
theorem loop_reach {r : AStarRouter} {zones : List NoFlyZone} {t : ℝ}
    {start : Point} {startG goalG : Node} :
    ∀ (n : ℕ) (st : AState), Inv r zones t startG goalG st →
      astarMeasure r startG st < n →
      ∀ x, (x ∈ st.closed ∨ x ∈ openNodes st) → Reaches r zones t x goalG →
      astarLoop r zones t start goalG n st ≠ [] := by
  intro n
  induction n with
  | zero => intro st _ hM; omega
  | succ n ih =>
    intro st hInv hM x hx hreach
    rw [astarLoop]
    rcases hpop : popMin st.openL with _ | ⟨e, rest⟩
    · -- frontier exhausted: contradiction with reachability of the goal
      exfalso
      have hopen : st.openL = [] := popMin_none_iff.mp hpop
      have hxc : x ∈ st.closed := by
        rcases hx with hc | ho
        · exact hc
        · rw [openNodes, hopen] at ho
          cases ho
      have hchain : ∀ {a b : Node}, Reaches r zones t a b →
          a ∈ st.closed → b ∈ st.closed := by
        intro a b hab
        induction hab with
        | refl => exact id
        | tail _ hedge ihc =>
          intro ha
          rename_i b' c' _
          have hb' := ihc ha
          rcases hInv.closure b' hb' c' hedge with hc | ⟨gv, _, hgv, _, _⟩
          · exact hc
          · rcases hInv.gOpen c' (Option.isSome_iff_exists.mpr ⟨gv, hgv⟩) with hc | ho
            · exact hc
            · rw [openNodes, hopen] at ho
              cases ho
      exact hInv.goalNotClosed (hchain hreach hxc)
    · dsimp only
      by_cases hg : e.2.2 = goalG
      · rw [if_pos hg]
        simp
      · rw [if_neg hg]
        obtain ⟨hInv2, hM2, hpres⟩ := inv_step hInv hpop hg
        exact ih _ hInv2 (by omega) x (hpres x hx) hreach

/-- The invariant holds in the initial search state of `find_path`. -/
theorem inv_init (r : AStarRouter) (zones : List NoFlyZone) (t : ℝ)
    (startG goalG : Node) :
    Inv r zones t startG goalG
      { openL := [(r.heuristic startG goalG zones t, 0, startG)]
        closed := ∅
        cameFrom := fun _ => none
        gScore := Function.update (fun _ => none) startG (some 0)
        counter := 1 } := by
  refine ⟨?_, ?_, ?_, ?_, ?_, ?_, ?_, ?_⟩
  · intro v hv
    dsimp only at hv
    by_cases hvs : v = startG
    · subst hvs
      exact Or.inr (by simp [openNodes])
    · rw [Function.update_noteq hvs] at hv
      cases hv
  · intro u hu
    cases hu
  · intro e he
    rcases List.mem_singleton.mp he with rfl
    exact Or.inl rfl
  · intro v hv
    cases hv
  · exact Finset.not_mem_empty _
  · intro e he
    rcases List.mem_singleton.mp he with rfl
    simp
  · intro v hv
    cases hv
  · intro e he
    rcases List.mem_singleton.mp he with rfl
    exact Relation.ReflTransGen.refl

/-- `find_path` returns a non-empty path whenever the goal cell is
reachable from the start cell. -/
theorem findPath_of_reaches {r : AStarRouter} {zones : List NoFlyZone} {t : ℝ}
    {start goal : Point} {drone : Drone}
    (h : Reaches r zones t (r.toGrid start) (r.toGrid goal)) :
    r.findPath start goal drone zones t ≠ [] := by
  unfold AStarRouter.findPath
  refine loop_reach (fuelBound r) _ (inv_init r zones t _ _) ?_ (r.toGrid start)
    (Or.inr (by simp [openNodes])) h
  have hcard := okFin_card r (r.toGrid start)
  unfold astarMeasure fuelBound
  simp only [List.length_singleton, Finset.card_empty, Nat.sub_zero]
  omega

/-- A non-empty `find_path` result means the goal cell is reachable
from the start cell. -/
theorem reaches_of_findPath {r : AStarRouter} {zones : List NoFlyZone} {t : ℝ}
    {start goal : Point} {drone : Drone}
    (h : r.findPath start goal drone zones t ≠ []) :
    Reaches r zones t (r.toGrid start) (r.toGrid goal) := by
  unfold AStarRouter.findPath at h
  exact loop_sound (fuelBound r) _ (inv_init r zones t _ _) h

/-- When start and goal quantise to the same cell, the very first pop
reaches the goal and `find_path` returns the single-element path
`[start]`. -/
theorem findPath_same_cell {r : AStarRouter} {zones : List NoFlyZone} {t : ℝ}
    {start goal : Point} {drone : Drone} (h : r.toGrid start = r.toGrid goal) :
    r.findPath start goal drone zones t = [start] := by
  unfold AStarRouter.findPath
  rw [← h]
  obtain ⟨k, hk⟩ : ∃ k, fuelBound r = k + 1 :=
    ⟨fuelBound r - 1, by unfold fuelBound; omega⟩
  rw [hk, astarLoop]
  have hpop : popMin [(r.heuristic (r.toGrid start) (r.toGrid start) zones t, 0,
      r.toGrid start)] = some ((r.heuristic (r.toGrid start) (r.toGrid start) zones t, 0,
      r.toGrid start), []) := rfl
  rw [hpop]
  dsimp only
  rw [if_pos rfl]
  obtain ⟨m, hm⟩ : ∃ m, fuelBound r = m + 1 :=
    ⟨fuelBound r - 1, by unfold fuelBound; omega⟩
  rw [hm, reconstructAux]
  simp

/-! ## Claim C6: router symmetry -/

/-- C6, counterexample: with the optimizers' own router (grid 100×100),
a start on the grid's outer fringe can step into the grid, but no
search can ever reach an out-of-bounds goal cell.  `find_path` from
`(100, 50)` to `(99, 50)` (no zones) succeeds while the reverse call
returns the empty path. -/
theorem c6_counterexample :
    optimizerRouter.findPath (100, 50) (99, 50) junkDrone [] 0 ≠ [] ∧
    optimizerRouter.findPath (99, 50) (100, 50) junkDrone [] 0 = [] := by
  have hg1 : optimizerRouter.toGrid (100, 50) = (100, 50) := by
    unfold AStarRouter.toGrid optimizerRouter ratTrunc
    norm_num
  have hg2 : optimizerRouter.toGrid (99, 50) = (99, 50) := by
    unfold AStarRouter.toGrid optimizerRouter ratTrunc
    norm_num
  constructor
  · apply findPath_of_reaches
    rw [hg1, hg2]
    refine Relation.ReflTransGen.single ⟨?_, ?_⟩
    · refine mem_getNeighbors.mpr ⟨?_, ?_⟩
      · decide
      · decide
    · intro z hz
      cases hz
  · by_contra hne
    have hr := reaches_of_findPath hne
    rw [hg1, hg2] at hr
    rcases reaches_inBounds hr with heq | hb
    · exact absurd heq (by decide)
    · exact absurd hb (by decide)

/-- C6, amended: the symmetry law holds as soon as the *start* point's
grid cell lies within the grid bounds: if `find_path(a, b)` returns a
non-empty path and `a`'s cell is in bounds, then `find_path(b, a)`
(same zone snapshot and time, any vehicle) also returns a non-empty
path.  (The counterexample shows the in-bounds proviso is necessary:
an out-of-bounds cell can start a search but can never be re-entered.) -/
theorem c6_find_path_symm {r : AStarRouter} {zones : List NoFlyZone} {t : ℝ}
    {a b : Point} {d1 d2 : Drone}
    (hin : r.inBounds (r.toGrid a))
    (h : r.findPath a b d1 zones t ≠ []) :
    r.findPath b a d2 zones t ≠ [] := by
  apply findPath_of_reaches
  exact reaches_symm hin (reaches_of_findPath h)

/-- C6, witness for the amended theorem: `(1/2, 0)` shares the cell of
the in-bounds start `(0, 0)`, the forward search succeeds, and the
theorem yields a non-empty reverse path. -/
theorem c6_witness :
    optimizerRouter.findPath ((1:ℚ)/2, 0) (0, 0) junkDrone [] 0 ≠ [] := by
  have hg : optimizerRouter.toGrid (0, 0) = optimizerRouter.toGrid ((1:ℚ)/2, 0) := by
    unfold AStarRouter.toGrid optimizerRouter ratTrunc
    norm_num
  refine @c6_find_path_symm optimizerRouter [] 0 (0, 0) ((1:ℚ)/2, 0) junkDrone junkDrone ?_ ?_
  · rw [show optimizerRouter.toGrid (0, 0) = (0, 0) by
      unfold AStarRouter.toGrid optimizerRouter ratTrunc; norm_num]
    decide
  · rw [findPath_same_cell hg]
    simp

/-- The push case of `expandNeighbor`, packaged for concrete runs. -/
theorem expandNeighbor_push {r : AStarRouter} {zones : List NoFlyZone} {t : ℝ}
    {goalG current : Node} {st : AState} {nb : Node}
    (h1 : nb ∉ st.closed) (h2 : r.isValidMove nb zones t current)
    (h3 : st.gScore nb = none) :
    expandNeighbor r zones t goalG current st nb =
      { st with
        cameFrom := Function.update st.cameFrom nb (some current)
        gScore := Function.update st.gScore nb
          (some ((st.gScore current).getD 0 + gridDist current nb))
        openL := st.openL ++
          [((st.gScore current).getD 0 + gridDist current nb
              + r.heuristic nb goalG zones t, st.counter, nb)]
        counter := st.counter + 1 } := by
  rcases expandNeighbor_cases r zones t goalG current st nb with ⟨_, hdis⟩ | ⟨_, _, _, heq⟩
  · rcases hdis with hc | hv | ⟨gnb, hgnb, _⟩
    · exact absurd hc h1
    · exact absurd h2 hv
    · rw [h3] at hgnb
      cases hgnb
  · exact heq

/-- Concrete router run: on the optimizers' 100×100 router with no
zones, the path from `(0,0)` to the adjacent cell `(0,1)` is the
two-point straight segment. -/
theorem findPath100_01 (d : Drone) (t : ℝ) :
    optimizerRouter.findPath (0, 0) (0, 1) d [] t = [(0, 0), (0, 1)] := by
  have hg0 : optimizerRouter.toGrid (0, 0) = (0, 0) := by
    unfold AStarRouter.toGrid optimizerRouter ratTrunc
    norm_num
  have hg1 : optimizerRouter.toGrid (0, 1) = (0, 1) := by
    unfold AStarRouter.toGrid optimizerRouter ratTrunc
    norm_num
  have hvm : ∀ pos prev, optimizerRouter.isValidMove pos [] t prev := by
    intro pos prev z hz
    cases hz
  have hnb : optimizerRouter.getNeighbors (0, 0) = [(0, 1), (1, 0), (1, 1)] := by decide
  unfold AStarRouter.findPath
  rw [hg0, hg1]
  obtain ⟨k, hk⟩ : ∃ k, fuelBound optimizerRouter = k + 2 :=
    ⟨fuelBound optimizerRouter - 2, by unfold fuelBound; norm_num [optimizerRouter]⟩
  rw [hk]
  rw [astarLoop]
  rw [show popMin [(optimizerRouter.heuristic (0, 0) (0, 1) [] t, 0, ((0 : ℤ), (0 : ℤ)))] =
    some ((optimizerRouter.heuristic (0, 0) (0, 1) [] t, 0, ((0 : ℤ), (0 : ℤ))), []) from rfl]
  dsimp only
  rw [if_neg (by decide : ¬((0 : ℤ), (0 : ℤ)) = ((0 : ℤ), (1 : ℤ)))]
  rw [show expandAll optimizerRouter [] t (0, 1) (0, 0) _ =
    List.foldl (expandNeighbor optimizerRouter [] t (0, 1) (0, 0)) _
      (optimizerRouter.getNeighbors (0, 0)) from rfl]
  rw [hnb]
  rw [List.foldl_cons, expandNeighbor_push _ (hvm _ _) _]
  rotate_left
  · dsimp only; decide
  · dsimp only; simp +decide [Function.update_apply]
  dsimp only
  simp only [Function.update_same, Option.getD_some, List.nil_append]
  rw [List.foldl_cons, expandNeighbor_push _ (hvm _ _) _]
  rotate_left
  · dsimp only; decide
  · dsimp only; simp +decide [Function.update_apply]
  dsimp only
  rw [Function.update_noteq (by decide : ((0:ℤ),(0:ℤ)) ≠ ((0:ℤ),(1:ℤ)))]
  simp only [Function.update_same, Option.getD_some]
  rw [List.foldl_cons, expandNeighbor_push _ (hvm _ _) _]
  rotate_left
  · dsimp only; decide
  · dsimp only; simp +decide [Function.update_apply]
  dsimp only
  rw [Function.update_noteq (by decide : ((0:ℤ),(0:ℤ)) ≠ ((1:ℤ),(0:ℤ))),
    Function.update_noteq (by decide : ((0:ℤ),(0:ℤ)) ≠ ((0:ℤ),(1:ℤ)))]
  simp only [Function.update_same, Option.getD_some, List.foldl_nil]
  have hd01 : gridDist (0, 0) (0, 1) = 1 := by
    unfold gridDist; norm_num
  have hd10 : gridDist (0, 0) (1, 0) = 1 := by
    unfold gridDist; norm_num
  have hd11 : gridDist (0, 0) (1, 1) = Real.sqrt 2 := by
    unfold gridDist; norm_num
  have hh01 : optimizerRouter.heuristic (0, 1) (0, 1) [] t = 0 := by
    unfold AStarRouter.heuristic gridDist; norm_num
  have hh10 : optimizerRouter.heuristic (1, 0) (0, 1) [] t = Real.sqrt 2 := by
    unfold AStarRouter.heuristic gridDist; norm_num
  have hh11 : optimizerRouter.heuristic (1, 1) (0, 1) [] t = 1 := by
    unfold AStarRouter.heuristic gridDist; norm_num
  rw [hd01, hd10, hd11, hh01, hh10, hh11]
  norm_num
  simp only [Prod.one_eq_mk, Prod.zero_eq_mk]
  have hs2 : (0:ℝ) < Real.sqrt 2 := Real.sqrt_pos.mpr (by norm_num)
  have hp2 : popMin [((1 + Real.sqrt 2 : ℝ), 2, ((1:ℤ), (0:ℤ))),
      ((Real.sqrt 2 + 1 : ℝ), 3, ((1:ℤ), (1:ℤ)))] =
      some (((1 + Real.sqrt 2 : ℝ), 2, ((1:ℤ), (0:ℤ))),
        [((Real.sqrt 2 + 1 : ℝ), 3, ((1:ℤ), (1:ℤ)))]) := by
    rw [popMin]
    rw [show popMin [((Real.sqrt 2 + 1 : ℝ), 3, ((1:ℤ), (1:ℤ)))] =
      some (((Real.sqrt 2 + 1 : ℝ), 3, ((1:ℤ), (1:ℤ))), []) from rfl]
    dsimp only
    have hk23 : keyLe ((1 + Real.sqrt 2 : ℝ), 2, ((1:ℤ), (0:ℤ)))
        ((Real.sqrt 2 + 1 : ℝ), 3, ((1:ℤ), (1:ℤ))) := Or.inr ⟨by ring, by norm_num⟩
    rw [if_pos hk23]
  have hp : popMin [((1:ℝ), 1, ((0:ℤ), (1:ℤ))), ((1 + Real.sqrt 2 : ℝ), 2, ((1:ℤ), (0:ℤ))),
      ((Real.sqrt 2 + 1 : ℝ), 3, ((1:ℤ), (1:ℤ)))] =
      some (((1:ℝ), 1, ((0:ℤ), (1:ℤ))),
        [((1 + Real.sqrt 2 : ℝ), 2, ((1:ℤ), (0:ℤ))),
          ((Real.sqrt 2 + 1 : ℝ), 3, ((1:ℤ), (1:ℤ)))]) := by
    rw [popMin, hp2]
    dsimp only
    have hk12 : keyLe ((1:ℝ), 1, ((0:ℤ), (1:ℤ)))
        ((1 + Real.sqrt 2 : ℝ), 2, ((1:ℤ), (0:ℤ))) :=
      Or.inl (show (1:ℝ) < 1 + Real.sqrt 2 by linarith)
    rw [if_pos hk12]
  rw [astarLoop]
  dsimp only
  rw [hp]
  dsimp only
  rw [if_pos rfl]
  obtain ⟨m, hm⟩ : ∃ m, fuelBound optimizerRouter = m + 2 :=
    ⟨fuelBound optimizerRouter - 2, by unfold fuelBound; norm_num [optimizerRouter]⟩
  rw [hm, reconstructAux]
  rw [show (Function.update (Function.update (Function.update
      (fun _ : Node => (none : Option Node)) ((0:ℤ), (1:ℤ)) (some ((0:ℤ), (0:ℤ))))
      ((1:ℤ), (0:ℤ)) (some ((0:ℤ), (0:ℤ)))) ((1:ℤ), (1:ℤ)) (some ((0:ℤ), (0:ℤ))))
      ((0:ℤ), (1:ℤ)) = some ((0:ℤ), (0:ℤ)) by
    rw [Function.update_noteq (by decide), Function.update_noteq (by decide),
      Function.update_same]]
  dsimp only
  rw [reconstructAux]
  rw [show (Function.update (Function.update (Function.update
      (fun _ : Node => (none : Option Node)) ((0:ℤ), (1:ℤ)) (some ((0:ℤ), (0:ℤ))))
      ((1:ℤ), (0:ℤ)) (some ((0:ℤ), (0:ℤ)))) ((1:ℤ), (1:ℤ)) (some ((0:ℤ), (0:ℤ))))
      ((0:ℤ), (0:ℤ)) = none by
    rw [Function.update_noteq (by decide), Function.update_noteq (by decide),
      Function.update_noteq (by decide)]]
  dsimp only
  unfold AStarRouter.realPos optimizerRouter
  norm_num

/-- The parcel's cell coincides with the vehicle's cell. -/
theorem c10_same_cell :
    optimizerRouter.toGrid droneC10.currentPosition =
      optimizerRouter.toGrid parcelC10.position := by
  unfold AStarRouter.toGrid optimizerRouter ratTrunc droneC10 parcelC10
  norm_num

/-- The greedy planner accepts `droneC10` for `parcelC10`. -/
theorem c10_greedy_accepts : greedyAccepts [] 0 droneC10 parcelC10 := by
  refine ⟨?_, ⟨?_, ?_⟩, ?_⟩
  · show (0 : ℝ) + 1 ≤ 10
    norm_num
  · show (0 : ℝ) ≤ 0
    norm_num
  · show (0 : ℝ) ≤ 10
    norm_num
  · show (optimizerRouter.findPath droneC10.currentPosition parcelC10.position
        droneC10 [] 0 ≠ [] ∧
      ¬ pathBlocked [] 0 (optimizerRouter.findPath droneC10.currentPosition
        parcelC10.position droneC10 [] 0))
    rw [findPath_same_cell c10_same_cell]
    constructor
    · simp
    · rintro ⟨z, hz, _⟩
      cases hz

/-- C10, counterexample: the parcel in the vehicle's own grid cell is
*not* rejected by every planner — the greedy planner (which only tests
path emptiness, not `len < 2`) assigns it and stamps it completed. -/
theorem c10_counterexample :
    (solveGreedy [droneC10] [parcelC10] [] 0).assignment = [("d1", [0])] ∧
    ((solveGreedy [droneC10] [parcelC10] [] 0).deliveries.getD 0 junkDelivery).status =
      "completed" := by
  have hpick : greedyPick [] 0 [droneC10] parcelC10 =
      some (droneC10, eDist droneC10.currentPosition parcelC10.position) := by
    unfold greedyPick
    rw [List.foldl_cons, List.foldl_nil, if_pos c10_greedy_accepts]
  unfold solveGreedy
  dsimp only
  rw [show List.range ([parcelC10].length) = [0] from rfl]
  rw [List.foldl_cons, List.foldl_nil]
  dsimp only
  rw [show ([parcelC10].getD 0 junkDelivery) = parcelC10 from rfl, hpick]
  dsimp only
  constructor
  · rfl
  · rfl

/-- The CSP oracle rejects the same-cell parcel (single-point path has
length `< 2`). -/
theorem c10_csp_candidate :
    cspCandidate []
      ⟨droneC10.currentPosition, droneC10.currentBattery, 0, droneC10.route⟩
      droneC10 parcelC10 = none := by
  unfold cspCandidate
  rw [if_neg (by show ¬((1 : ℝ) > 10); norm_num)]
  dsimp only
  rw [findPath_same_cell c10_same_cell]
  rw [if_pos (by simp)]

/-- C10, amended: when start and goal quantise to the same cell,
`find_path` returns the single-element path `[start]`; the CSP planner
(whose oracle rejects `len(path) < 2`) therefore rejects a parcel in
its vehicle's own cell and stamps it failed, but the greedy planner
(which only tests emptiness) accepts exactly such parcels. -/
theorem c10_same_cell_paths :
    (∀ (r : AStarRouter) (zones : List NoFlyZone) (t : ℝ) (start goal : Point)
        (d : Drone), r.toGrid start = r.toGrid goal →
        r.findPath start goal d zones t = [start]) ∧
    ((solveCsp [droneC10] [parcelC10] [] 0).deliveries.getD 0 junkDelivery).status =
      "failed" := by
  constructor
  · intro r zones t start goal d h
    exact findPath_same_cell h
  · have hstates : (List.foldl
        (fun f (d : Drone) => Function.update f d.id
          ⟨d.currentPosition, d.currentBattery, (0 : ℝ), d.route⟩)
        (fun _ => junkDroneState) [droneC10]) =
        Function.update (fun _ => junkDroneState) droneC10.id
          ⟨droneC10.currentPosition, droneC10.currentBattery, 0, droneC10.route⟩ := by
      rw [List.foldl_cons, List.foldl_nil]
    have hsel : cspSelect []
        (Function.update (fun _ => junkDroneState) droneC10.id
          ⟨droneC10.currentPosition, droneC10.currentBattery, 0, droneC10.route⟩)
        [droneC10] parcelC10 = none := by
      unfold cspSelect
      rw [List.foldl_cons, List.foldl_nil, Function.update_same, c10_csp_candidate]
    unfold solveCsp
    dsimp only
    rw [initSort, cspSort, List.mergeSort_singleton, List.mergeSort_singleton]
    rw [show List.enum [parcelC10] = [(0, parcelC10)] from rfl]
    rw [hstates]
    rw [List.foldl_cons, List.foldl_nil]
    unfold cspStep
    dsimp only
    rw [hsel]
    rfl

/-- C10, witness for the universally quantified part of the amended
theorem: at the concrete same-cell pair, `find_path` returns exactly
`[start]`. -/
theorem c10_witness :
    optimizerRouter.findPath (0, 0) (1/2, 0) droneC10 [] 0 = [(0, 0)] :=
  c10_same_cell_paths.1 optimizerRouter [] 0 (0, 0) (1/2, 0) droneC10
    (by unfold AStarRouter.toGrid optimizerRouter ratTrunc; norm_num)

/-- The straight-line distance from `droneC4` to `parcelC4` is 1. -/
theorem c4_dist : eDist droneC4.currentPosition parcelC4.position = 1 := by
  unfold eDist droneC4 parcelC4
  norm_num

/-- The greedy planner accepts the empty-battery vehicle. -/
theorem c4_greedy_accepts : greedyAccepts [] 0 droneC4 parcelC4 := by
  refine ⟨?_, ⟨?_, ?_⟩, ?_⟩
  · show (0 : ℝ) + 1 ≤ 10
    norm_num
  · show (0 : ℝ) ≤ 0
    norm_num
  · show (0 : ℝ) ≤ 10
    norm_num
  · show (optimizerRouter.findPath droneC4.currentPosition parcelC4.position
        droneC4 [] 0 ≠ [] ∧
      ¬ pathBlocked [] 0 (optimizerRouter.findPath droneC4.currentPosition
        parcelC4.position droneC4 [] 0))
    constructor
    · apply findPath_of_reaches
      rw [show optimizerRouter.toGrid droneC4.currentPosition = ((0 : ℤ), (0 : ℤ)) by
          unfold AStarRouter.toGrid optimizerRouter ratTrunc droneC4; norm_num,
        show optimizerRouter.toGrid parcelC4.position = ((0 : ℤ), (1 : ℤ)) by
          unfold AStarRouter.toGrid optimizerRouter ratTrunc parcelC4; norm_num]
      refine Relation.ReflTransGen.single ⟨?_, ?_⟩
      · exact mem_getNeighbors.mpr ⟨by decide, by decide⟩
      · intro z hz
        cases hz
    · rintro ⟨z, hz, _⟩
      cases hz

/-- C4, counterexample: the greedy planner assigns `parcelC4` to the
empty-battery `droneC4` (and stamps it completed) even though
`has_sufficient_battery` rejects that vehicle for the route's
distance — the greedy planner never consults the battery. -/
theorem c4_counterexample :
    (solveGreedy [droneC4] [parcelC4] [] 0).assignment = [("d1", [0])] ∧
    ((solveGreedy [droneC4] [parcelC4] [] 0).deliveries.getD 0 junkDelivery).status =
      "completed" ∧
    ¬ droneC4.hasSufficientBattery (eDist droneC4.currentPosition parcelC4.position) := by
  refine ⟨?_, ?_, ?_⟩
  · have hpick : greedyPick [] 0 [droneC4] parcelC4 =
        some (droneC4, eDist droneC4.currentPosition parcelC4.position) := by
      unfold greedyPick
      rw [List.foldl_cons, List.foldl_nil, if_pos c4_greedy_accepts]
    unfold solveGreedy
    dsimp only
    rw [show List.range ([parcelC4].length) = [0] from rfl]
    rw [List.foldl_cons, List.foldl_nil]
    dsimp only
    rw [show ([parcelC4].getD 0 junkDelivery) = parcelC4 from rfl, hpick]
    rfl
  · have hpick : greedyPick [] 0 [droneC4] parcelC4 =
        some (droneC4, eDist droneC4.currentPosition parcelC4.position) := by
      unfold greedyPick
      rw [List.foldl_cons, List.foldl_nil, if_pos c4_greedy_accepts]
    unfold solveGreedy
    dsimp only
    rw [show List.range ([parcelC4].length) = [0] from rfl]
    rw [List.foldl_cons, List.foldl_nil]
    dsimp only
    rw [show ([parcelC4].getD 0 junkDelivery) = parcelC4 from rfl, hpick]
    rfl
  · rw [c4_dist]
    unfold Drone.hasSufficientBattery droneC4
    norm_num

open Classical in
/-- C4, amended: the greedy planner applies the weight, time-window and
route (non-empty, unblocked) predicates, but never the battery
predicate: its result is invariant under arbitrarily reassigning every
vehicle's remaining energy. -/
theorem c4_greedy_ignores_battery (drones : List Drone) (deliveries : List Delivery)
    (zones : List NoFlyZone) (t : ℝ) (f : Drone → ℝ) :
    solveGreedy (drones.map fun d => { d with currentBattery := f d }) deliveries zones t
      = solveGreedy drones deliveries zones t := by
  have hstep : ∀ (dl : Delivery) (acc : Option (Drone × ℝ)) (d : Drone),
      greedyStep zones t dl
        (Option.map (fun p : Drone × ℝ => ({ p.1 with currentBattery := f p.1 }, p.2)) acc)
        ({ d with currentBattery := f d } : Drone)
      = Option.map (fun p : Drone × ℝ => ({ p.1 with currentBattery := f p.1 }, p.2))
          (greedyStep zones t dl acc d) := by
    intro dl acc d
    unfold greedyStep
    by_cases h : greedyAccepts zones t d dl
    · have h' : greedyAccepts zones t ({ d with currentBattery := f d } : Drone) dl := h
      rw [if_pos h', if_pos h]
      cases acc with
      | none => rfl
      | some p =>
        dsimp only [Option.map]
        by_cases h2 : eDist d.currentPosition dl.position < p.2
        · rw [if_pos h2, if_pos h2]
        · rw [if_neg h2, if_neg h2]
    · have h' : ¬ greedyAccepts zones t ({ d with currentBattery := f d } : Drone) dl := h
      rw [if_neg h', if_neg h]
  have hpick : ∀ dl, greedyPick zones t (drones.map fun d => { d with currentBattery := f d }) dl
      = Option.map (fun p : Drone × ℝ => ({ p.1 with currentBattery := f p.1 }, p.2))
          (greedyPick zones t drones dl) := by
    intro dl
    show (drones.map fun d => { d with currentBattery := f d }).foldl
        (greedyStep zones t dl) none
      = Option.map (fun p : Drone × ℝ => ({ p.1 with currentBattery := f p.1 }, p.2))
          (drones.foldl (greedyStep zones t dl) none)
    rw [List.foldl_map]
    suffices hgen : ∀ (l : List Drone) (acc : Option (Drone × ℝ)),
        l.foldl (fun best d => greedyStep zones t dl best
            ({ d with currentBattery := f d } : Drone))
          (Option.map (fun p : Drone × ℝ => ({ p.1 with currentBattery := f p.1 }, p.2)) acc)
        = Option.map (fun p : Drone × ℝ => ({ p.1 with currentBattery := f p.1 }, p.2))
            (l.foldl (greedyStep zones t dl) acc) by
      exact hgen drones none
    intro l
    induction l with
    | nil => intro acc; rfl
    | cons d rest ih =>
      intro acc
      rw [List.foldl_cons, List.foldl_cons, hstep]
      exact ih _
  unfold solveGreedy
  dsimp only
  rw [List.map_map]
  rw [show ((fun d : Drone => (d.id, ([] : List ℕ))) ∘ fun d => { d with currentBattery := f d })
    = fun d : Drone => (d.id, ([] : List ℕ)) from rfl]
  have hfun : (fun (acc : List (String × List ℕ) × List Delivery) (i : ℕ) =>
      match greedyPick zones t (drones.map fun d => { d with currentBattery := f d })
          (acc.2.getD i junkDelivery) with
      | some (d, _) =>
        (acc.1.map fun p : String × List ℕ => if p.1 = d.id then (p.1, p.2 ++ [i]) else p,
          acc.2.set i (acc.2.getD i junkDelivery).markCompleted)
      | none => (acc.1, acc.2.set i (acc.2.getD i junkDelivery).markFailed))
      = (fun (acc : List (String × List ℕ) × List Delivery) (i : ℕ) =>
      match greedyPick zones t drones (acc.2.getD i junkDelivery) with
      | some (d, _) =>
        (acc.1.map fun p : String × List ℕ => if p.1 = d.id then (p.1, p.2 ++ [i]) else p,
          acc.2.set i (acc.2.getD i junkDelivery).markCompleted)
      | none => (acc.1, acc.2.set i (acc.2.getD i junkDelivery).markFailed)) := by
    funext acc i
    rw [hpick]
    rcases greedyPick zones t drones (acc.2.getD i junkDelivery) with _ | ⟨d, dist⟩
    · rfl
    · rfl
  rw [hfun]

/-- C7: in the CSP planner's per-candidate evaluation the energy cost of
a route is exactly its total path distance, and — when the weight, path
and blocking checks pass and the arrival meets the window — the vehicle
is rejected if and only if that distance strictly exceeds the
snapshot's remaining energy; a distance less than or equal to the
remaining energy yields the feasible record `(arrival, path)` with
`arrival = clock + distance / speed`. -/
theorem c7_battery_boundary (zones : List NoFlyZone) (st : DroneState)
    (d : Drone) (dl : Delivery)
    (hw : ¬ dl.weight > d.maxWeight)
    (hlen : ¬ (optimizerRouter.findPath st.position dl.position d zones st.time).length < 2)
    (hblk : ¬ pathBlocked zones st.time
        (optimizerRouter.findPath st.position dl.position d zones st.time))
    (hwin : dl.timeWindowStart ≤ st.time +
        pathDist (optimizerRouter.findPath st.position dl.position d zones st.time) / d.speed ∧
      st.time + pathDist (optimizerRouter.findPath st.position dl.position d zones st.time) /
          d.speed ≤ dl.timeWindowEnd) :
    (cspCandidate zones st d dl = none ↔
      pathDist (optimizerRouter.findPath st.position dl.position d zones st.time) >
        st.battery) ∧
    (pathDist (optimizerRouter.findPath st.position dl.position d zones st.time) ≤
        st.battery →
      cspCandidate zones st d dl = some
        (st.time + pathDist (optimizerRouter.findPath st.position dl.position d zones st.time)
            / d.speed,
          optimizerRouter.findPath st.position dl.position d zones st.time)) := by
  unfold cspCandidate
  rw [if_neg hw]
  dsimp only
  rw [if_neg hlen, if_neg hblk]
  by_cases hb : pathDist (optimizerRouter.findPath st.position dl.position d zones st.time) >
      st.battery
  · rw [if_pos hb]
    exact ⟨⟨fun _ => hb, fun _ => rfl⟩, fun hle => absurd hb (not_lt.mpr hle)⟩
  · rw [if_neg hb, if_neg (not_not_intro hwin)]
    exact ⟨⟨fun h => Option.noConfusion h, fun h => absurd h hb⟩, fun _ => rfl⟩

theorem c7_witness :
    pathDist (optimizerRouter.findPath stC7.position parcelC7.position droneC7 [] stC7.time)
      = stC7.battery ∧
    cspCandidate [] stC7 droneC7 parcelC7
      = some (stC7.time + 1 / droneC7.speed, [((0 : ℚ), (0 : ℚ)), ((0 : ℚ), (1 : ℚ))]) := by
  have hfp : optimizerRouter.findPath stC7.position parcelC7.position droneC7 [] stC7.time
      = [((0 : ℚ), (0 : ℚ)), ((0 : ℚ), (1 : ℚ))] := findPath100_01 droneC7 stC7.time
  have hpd : pathDist [((0 : ℚ), (0 : ℚ)), ((0 : ℚ), (1 : ℚ))] = 1 := by
    show eDist ((0 : ℚ), (0 : ℚ)) ((0 : ℚ), (1 : ℚ)) + 0 = 1
    rw [add_zero]
    unfold eDist
    norm_num
  constructor
  · rw [hfp]
    exact hpd
  · have h := (c7_battery_boundary [] stC7 droneC7 parcelC7
      (by show ¬ (1 : ℝ) > 10; norm_num)
      (by rw [hfp]; norm_num)
      (by rw [hfp]; rintro ⟨z, hz, _⟩; cases hz)
      (by
        rw [hfp, hpd]
        constructor
        · show (0 : ℝ) ≤ 0 + 1 / 1
          norm_num
        · show (0 : ℝ) + 1 / 1 ≤ 10
          norm_num)).2
      (by rw [hfp, hpd]; show (1 : ℝ) ≤ 1; norm_num)
    rw [hfp, hpd] at h
    exact h

theorem cspSelect_eq_foldl (zones : List NoFlyZone) (states : String → DroneState)
    (drones : List Drone) (dl : Delivery) :
    cspSelect zones states drones dl = drones.foldl (cspSelStep zones states dl) none := rfl

/-- Full characterization of the fleet-scan fold of `solve_csp`:
the scan returns `none` iff the accumulator was `none` and no vehicle
has a feasible candidate; a `some` result is either the surviving
accumulator, or the first vehicle in scan order whose feasible arrival
is strictly smaller than the accumulator's and than every feasible
arrival before it, and never larger than any feasible arrival in the
scanned list. -/
theorem cspFold_spec (zones : List NoFlyZone) (states : String → DroneState)
    (dl : Delivery) :
    ∀ (l : List Drone) (acc : Option (Drone × ℝ × List Point)),
      (l.foldl (cspSelStep zones states dl) acc = none ↔
        acc = none ∧ ∀ d ∈ l, cspCandidate zones (states d.id) d dl = none) ∧
      (∀ d a p, l.foldl (cspSelStep zones states dl) acc = some (d, a, p) →
        (∀ d' ∈ l, ∀ a' p',
          cspCandidate zones (states d'.id) d' dl = some (a', p') → a ≤ a') ∧
        (acc = some (d, a, p) ∨
          (cspCandidate zones (states d.id) d dl = some (a, p) ∧
            (∀ bd ba bp, acc = some (bd, ba, bp) → a < ba) ∧
            ∃ l1 l2, l = l1 ++ d :: l2 ∧
              ∀ d' ∈ l1, ∀ a' p',
                cspCandidate zones (states d'.id) d' dl = some (a', p') → a < a'))) := by
  intro l
  induction l with
  | nil =>
    intro acc
    refine ⟨by simp, ?_⟩
    intro d a p h
    exact ⟨by simp, Or.inl h⟩
  | cons d0 rest ih =>
    intro acc
    rcases hc0 : cspCandidate zones (states d0.id) d0 dl with _ | ⟨a0, p0⟩
    · have hstep : cspSelStep zones states dl acc d0 = acc := by
        unfold cspSelStep; rw [hc0]
      refine ⟨?_, ?_⟩
      · rw [List.foldl_cons, hstep, (ih acc).1]
        constructor
        · rintro ⟨ha, hr⟩
          refine ⟨ha, ?_⟩
          intro d hd
          rcases List.mem_cons.mp hd with rfl | hd
          · exact hc0
          · exact hr d hd
        · rintro ⟨ha, hall⟩
          exact ⟨ha, fun d hd => hall d (List.mem_cons_of_mem _ hd)⟩
      · intro d a p h
        rw [List.foldl_cons, hstep] at h
        obtain ⟨hmin, hcase⟩ := (ih acc).2 d a p h
        refine ⟨?_, ?_⟩
        · intro d' hd' a' p' hc'
          rcases List.mem_cons.mp hd' with rfl | hd'
          · rw [hc0] at hc'; exact absurd hc' (by simp)
          · exact hmin d' hd' a' p' hc'
        · rcases hcase with hacc | ⟨hcd, hbd, l1, l2, hsplit, hstrict⟩
          · exact Or.inl hacc
          · refine Or.inr ⟨hcd, hbd, d0 :: l1, l2, by rw [hsplit]; rfl, ?_⟩
            intro d' hd' a' p' hc'
            rcases List.mem_cons.mp hd' with rfl | hd'
            · rw [hc0] at hc'; exact absurd hc' (by simp)
            · exact hstrict d' hd' a' p' hc'
    · rcases acc with _ | ⟨bd, ba, bp⟩
      · have hstep : cspSelStep zones states dl none d0 = some (d0, a0, p0) := by
          unfold cspSelStep; rw [hc0]
        refine ⟨?_, ?_⟩
        · constructor
          · intro h
            rw [List.foldl_cons, hstep] at h
            obtain ⟨ha, _⟩ := (ih _).1.mp h
            exact absurd ha (by simp)
          · rintro ⟨_, hall⟩
            have := hall d0 (List.mem_cons_self _ _)
            rw [hc0] at this
            exact absurd this (by simp)
        · intro d a p h
          rw [List.foldl_cons, hstep] at h
          obtain ⟨hmin, hcase⟩ := (ih (some (d0, a0, p0))).2 d a p h
          rcases hcase with hacc | ⟨hcd, hbd, l1, l2, hsplit, hstrict⟩
          · simp only [Option.some.injEq, Prod.mk.injEq] at hacc
            obtain ⟨rfl, rfl, rfl⟩ := hacc
            refine ⟨?_, Or.inr ⟨hc0, ?_, [], rest, rfl, ?_⟩⟩
            · intro d' hd' a' p' hc'
              rcases List.mem_cons.mp hd' with rfl | hd'
              · rw [hc0] at hc'
                simp only [Option.some.injEq, Prod.mk.injEq] at hc'
                exact le_of_eq hc'.1
              · exact hmin d' hd' a' p' hc'
            · intro bd ba bp hE; exact Option.noConfusion hE
            · intro d' hd'; exact absurd hd' (by simp)
          · have ha0 : a < a0 := hbd d0 a0 p0 rfl
            refine ⟨?_, Or.inr ⟨hcd, ?_, d0 :: l1, l2, by rw [hsplit]; rfl, ?_⟩⟩
            · intro d' hd' a' p' hc'
              rcases List.mem_cons.mp hd' with rfl | hd'
              · rw [hc0] at hc'
                simp only [Option.some.injEq, Prod.mk.injEq] at hc'
                exact le_of_lt (hc'.1 ▸ ha0)
              · exact hmin d' hd' a' p' hc'
            · intro bd ba bp hE; exact Option.noConfusion hE
            · intro d' hd' a' p' hc'
              rcases List.mem_cons.mp hd' with rfl | hd'
              · rw [hc0] at hc'
                simp only [Option.some.injEq, Prod.mk.injEq] at hc'
                exact hc'.1 ▸ ha0
              · exact hstrict d' hd' a' p' hc'
      · by_cases hlt : a0 < ba
        · have hstep : cspSelStep zones states dl (some (bd, ba, bp)) d0
              = some (d0, a0, p0) := by
            unfold cspSelStep; rw [hc0]; dsimp only; rw [if_pos hlt]
          refine ⟨?_, ?_⟩
          · constructor
            · intro h
              rw [List.foldl_cons, hstep] at h
              obtain ⟨ha, _⟩ := (ih _).1.mp h
              exact absurd ha (by simp)
            · rintro ⟨hE, _⟩
              exact Option.noConfusion hE
          · intro d a p h
            rw [List.foldl_cons, hstep] at h
            obtain ⟨hmin, hcase⟩ := (ih (some (d0, a0, p0))).2 d a p h
            rcases hcase with hacc | ⟨hcd, hbd, l1, l2, hsplit, hstrict⟩
            · simp only [Option.some.injEq, Prod.mk.injEq] at hacc
              obtain ⟨rfl, rfl, rfl⟩ := hacc
              refine ⟨?_, Or.inr ⟨hc0, ?_, [], rest, rfl, ?_⟩⟩
              · intro d' hd' a' p' hc'
                rcases List.mem_cons.mp hd' with rfl | hd'
                · rw [hc0] at hc'
                  simp only [Option.some.injEq, Prod.mk.injEq] at hc'
                  exact le_of_eq hc'.1
                · exact hmin d' hd' a' p' hc'
              · intro bd' ba' bp' hE
                simp only [Option.some.injEq, Prod.mk.injEq] at hE
                exact hE.2.1 ▸ hlt
              · intro d' hd'; exact absurd hd' (by simp)
            · have ha0 : a < a0 := hbd d0 a0 p0 rfl
              refine ⟨?_, Or.inr ⟨hcd, ?_, d0 :: l1, l2, by rw [hsplit]; rfl, ?_⟩⟩
              · intro d' hd' a' p' hc'
                rcases List.mem_cons.mp hd' with rfl | hd'
                · rw [hc0] at hc'
                  simp only [Option.some.injEq, Prod.mk.injEq] at hc'
                  exact le_of_lt (hc'.1 ▸ ha0)
                · exact hmin d' hd' a' p' hc'
              · intro bd' ba' bp' hE
                simp only [Option.some.injEq, Prod.mk.injEq] at hE
                exact hE.2.1 ▸ (ha0.trans hlt)
              · intro d' hd' a' p' hc'
                rcases List.mem_cons.mp hd' with rfl | hd'
                · rw [hc0] at hc'
                  simp only [Option.some.injEq, Prod.mk.injEq] at hc'
                  exact hc'.1 ▸ ha0
                · exact hstrict d' hd' a' p' hc'
        · have hstep : cspSelStep zones states dl (some (bd, ba, bp)) d0
              = some (bd, ba, bp) := by
            unfold cspSelStep; rw [hc0]; dsimp only; rw [if_neg hlt]
          refine ⟨?_, ?_⟩
          · constructor
            · intro h
              rw [List.foldl_cons, hstep] at h
              obtain ⟨ha, _⟩ := (ih _).1.mp h
              exact absurd ha (by simp)
            · rintro ⟨hE, _⟩
              exact Option.noConfusion hE
          · intro d a p h
            rw [List.foldl_cons, hstep] at h
            obtain ⟨hmin, hcase⟩ := (ih (some (bd, ba, bp))).2 d a p h
            rcases hcase with hacc | ⟨hcd, hbd, l1, l2, hsplit, hstrict⟩
            · simp only [Option.some.injEq, Prod.mk.injEq] at hacc
              obtain ⟨rfl, rfl, rfl⟩ := hacc
              refine ⟨?_, Or.inl rfl⟩
              intro d' hd' a' p' hc'
              rcases List.mem_cons.mp hd' with rfl | hd'
              · rw [hc0] at hc'
                simp only [Option.some.injEq, Prod.mk.injEq] at hc'
                exact hc'.1 ▸ (not_lt.mp hlt)
              · exact hmin d' hd' a' p' hc'
            · have hba : a < ba := hbd bd ba bp rfl
              refine ⟨?_, Or.inr ⟨hcd, ?_, d0 :: l1, l2, by rw [hsplit]; rfl, ?_⟩⟩
              · intro d' hd' a' p' hc'
                rcases List.mem_cons.mp hd' with rfl | hd'
                · rw [hc0] at hc'
                  simp only [Option.some.injEq, Prod.mk.injEq] at hc'
                  exact hc'.1 ▸ (le_of_lt (hba.trans_le (not_lt.mp hlt)))
                · exact hmin d' hd' a' p' hc'
              · intro bd' ba' bp' hE
                simp only [Option.some.injEq, Prod.mk.injEq] at hE
                exact hE.2.1 ▸ hba
              · intro d' hd' a' p' hc'
                rcases List.mem_cons.mp hd' with rfl | hd'
                · rw [hc0] at hc'
                  simp only [Option.some.injEq, Prod.mk.injEq] at hc'
                  exact hc'.1 ▸ (hba.trans_le (not_lt.mp hlt))
                · exact hstrict d' hd' a' p' hc'

open Classical in
/-- C8: `solve_csp` visits the parcels sorted by ascending
`(-priority, window start)` — descending priority, ties by ascending
time-window start — as a permutation of the constructor's parcel list;
and its fleet scan selects, among the vehicles with a feasible
candidate, the one with the earliest arrival, ties broken by fleet
iteration order: the winner's candidate arrival is less than or equal
to every feasible arrival in the fleet and strictly less than every
feasible arrival of a vehicle earlier in fleet order. -/
theorem c8_csp_order_and_selection (dls : List Delivery) (zones : List NoFlyZone)
    (states : String → DroneState) (drones : List Drone) (dl : Delivery) :
    List.Sorted cspKeyLe (cspSort (initSort dls)) ∧
    (cspSort (initSort dls)).Perm dls ∧
    (cspSelect zones states drones dl = none ↔
      ∀ d ∈ drones, cspCandidate zones (states d.id) d dl = none) ∧
    (∀ d a p, cspSelect zones states drones dl = some (d, a, p) →
      cspCandidate zones (states d.id) d dl = some (a, p) ∧
      (∀ d' ∈ drones, ∀ a' p',
        cspCandidate zones (states d'.id) d' dl = some (a', p') → a ≤ a') ∧
      ∃ l1 l2, drones = l1 ++ d :: l2 ∧
        ∀ d' ∈ l1, ∀ a' p',
          cspCandidate zones (states d'.id) d' dl = some (a', p') → a < a') := by
  refine ⟨?_, ?_, ?_, ?_⟩
  · have htrans : ∀ a b c : Delivery, decide (cspKeyLe a b) = true →
        decide (cspKeyLe b c) = true → decide (cspKeyLe a c) = true := by
      intro a b c hab hbc
      simp only [decide_eq_true_eq] at hab hbc ⊢
      rcases hab with h | ⟨h, h'⟩ <;> rcases hbc with g | ⟨g, g'⟩
      · exact Or.inl (h.trans g)
      · exact Or.inl (g ▸ h)
      · exact Or.inl (h ▸ g)
      · exact Or.inr ⟨h.trans g, h'.trans g'⟩
    have htotal : ∀ a b : Delivery,
        (decide (cspKeyLe a b) || decide (cspKeyLe b a)) = true := by
      intro a b
      simp only [Bool.or_eq_true, decide_eq_true_eq]
      rcases lt_trichotomy (-a.priority) (-b.priority) with h | h | h
      · exact Or.inl (Or.inl h)
      · rcases le_total a.timeWindowStart b.timeWindowStart with hw | hw
        · exact Or.inl (Or.inr ⟨h, hw⟩)
        · exact Or.inr (Or.inr ⟨h.symm, hw⟩)
      · exact Or.inr (Or.inl h)
    have h := List.sorted_mergeSort htrans htotal (initSort dls)
    show List.Pairwise cspKeyLe (cspSort (initSort dls))
    unfold cspSort
    exact List.Pairwise.imp (fun hab => of_decide_eq_true hab) h
  · show ((initSort dls).mergeSort fun a b => decide (cspKeyLe a b)).Perm dls
    exact (List.mergeSort_perm _ _).trans (List.mergeSort_perm _ _)
  · rw [cspSelect_eq_foldl, (cspFold_spec zones states dl drones none).1]
    simp
  · intro d a p hsel
    rw [cspSelect_eq_foldl] at hsel
    obtain ⟨hmin, hcase⟩ := (cspFold_spec zones states dl drones none).2 d a p hsel
    rcases hcase with hacc | ⟨hcd, _, l1, l2, hsplit, hstrict⟩
    · exact Option.noConfusion hacc
    · exact ⟨hcd, hmin, l1, l2, hsplit, hstrict⟩

/-- The feasible candidate of `droneC7` for `parcelC7`, computed
directly. -/
theorem candEvalC7 : cspCandidate [] stC7 droneC7 parcelC7
    = some (stC7.time + pathDist [((0 : ℚ), (0 : ℚ)), ((0 : ℚ), (1 : ℚ))] / droneC7.speed,
        [((0 : ℚ), (0 : ℚ)), ((0 : ℚ), (1 : ℚ))]) := by
  have hfp : optimizerRouter.findPath stC7.position parcelC7.position droneC7 [] stC7.time
      = [((0 : ℚ), (0 : ℚ)), ((0 : ℚ), (1 : ℚ))] := findPath100_01 droneC7 stC7.time
  have hpd : pathDist [((0 : ℚ), (0 : ℚ)), ((0 : ℚ), (1 : ℚ))] = 1 := by
    show eDist ((0 : ℚ), (0 : ℚ)) ((0 : ℚ), (1 : ℚ)) + 0 = 1
    rw [add_zero]
    unfold eDist
    norm_num
  unfold cspCandidate
  rw [if_neg (show ¬ parcelC7.weight > droneC7.maxWeight by show ¬ (1 : ℝ) > 10; norm_num)]
  dsimp only
  rw [hfp]
  rw [if_neg (show ¬ ([((0 : ℚ), (0 : ℚ)), ((0 : ℚ), (1 : ℚ))] : List Point).length < 2 by
    norm_num)]
  rw [if_neg (show ¬ pathBlocked [] stC7.time [((0 : ℚ), (0 : ℚ)), ((0 : ℚ), (1 : ℚ))] by
    rintro ⟨z, hz, _⟩; cases hz)]
  rw [if_neg (show ¬ pathDist [((0 : ℚ), (0 : ℚ)), ((0 : ℚ), (1 : ℚ))] > stC7.battery by
    rw [hpd]; show ¬ (1 : ℝ) > 1; norm_num)]
  rw [if_neg (not_not_intro (show parcelC7.timeWindowStart ≤ stC7.time +
      pathDist [((0 : ℚ), (0 : ℚ)), ((0 : ℚ), (1 : ℚ))] / droneC7.speed ∧
      stC7.time + pathDist [((0 : ℚ), (0 : ℚ)), ((0 : ℚ), (1 : ℚ))] / droneC7.speed ≤
        parcelC7.timeWindowEnd by
    rw [hpd]
    constructor
    · show (0 : ℝ) ≤ 0 + 1 / 1; norm_num
    · show (0 : ℝ) + 1 / 1 ≤ 10; norm_num))]

theorem c8_witness :
    cspSelect [] (fun _ => stC7) [droneC7] parcelC7
      = some (droneC7,
          stC7.time + pathDist [((0 : ℚ), (0 : ℚ)), ((0 : ℚ), (1 : ℚ))] / droneC7.speed,
          [((0 : ℚ), (0 : ℚ)), ((0 : ℚ), (1 : ℚ))]) ∧
    cspCandidate [] stC7 droneC7 parcelC7
      = some (stC7.time + pathDist [((0 : ℚ), (0 : ℚ)), ((0 : ℚ), (1 : ℚ))] / droneC7.speed,
          [((0 : ℚ), (0 : ℚ)), ((0 : ℚ), (1 : ℚ))]) := by
  have hsel : cspSelect [] (fun _ => stC7) [droneC7] parcelC7
      = some (droneC7,
          stC7.time + pathDist [((0 : ℚ), (0 : ℚ)), ((0 : ℚ), (1 : ℚ))] / droneC7.speed,
          [((0 : ℚ), (0 : ℚ)), ((0 : ℚ), (1 : ℚ))]) := by
    rw [cspSelect_eq_foldl, List.foldl_cons, List.foldl_nil]
    unfold cspSelStep
    dsimp only
    rw [candEvalC7]
  refine ⟨hsel, ?_⟩
  exact ((c8_csp_order_and_selection [] [] (fun _ => stC7) [droneC7] parcelC7).2.2.2
    droneC7 _ _ hsel).1

open Classical in
/-- `fitContribution` on a one-parcel list, with its lets spelled out. -/
theorem fitContribution_singleton (zones : List NoFlyZone) (t : ℝ) (d : Drone)
    (x : Delivery) :
    fitContribution zones t [x] d 0
      = if optimizerRouter.findPath d.currentPosition x.position d zones t = [] ∨
            pathBlocked zones t (optimizerRouter.findPath d.currentPosition x.position d zones t)
          then -100
          else (if x.status = "completed" then (x.priority : ℝ) * 10 else 0)
            - eDist d.currentPosition x.position / d.speed * 2
            - (if ¬ x.isWithinTimeWindow t then 20 else 0) := rfl

/-- The straight-line distance from the origin to `(0, 1)` is 1. -/
theorem eDist01 : eDist ((0 : ℚ), (0 : ℚ)) ((0 : ℚ), (1 : ℚ)) = 1 := by
  unfold eDist
  norm_num

/-- C5, counterexample: `droneC5`'s route to `parcelC5` is accepted by
the oracle (non-empty and unblocked), yet with the parcel's stored
status `"pending"` its fitness contribution is −2 — no `priority · 10`
bonus — while the identical parcel with stored status `"completed"`
contributes 28; the whole fitness function for the one-gene genome
differs by exactly `priority · 10 = 30` between the two stored
statuses. -/
theorem c5_counterexample :
    (optimizerRouter.findPath droneC5.currentPosition parcelC5.position droneC5 [] 0 ≠ [] ∧
      ¬ pathBlocked [] 0
        (optimizerRouter.findPath droneC5.currentPosition parcelC5.position droneC5 [] 0)) ∧
    parcelC5.status = "pending" ∧
    fitContribution [] 0 [parcelC5] droneC5 0 = -2 ∧
    fitContribution [] 0 [{ parcelC5 with status := "completed" }] droneC5 0 = 28 ∧
    calculateFitness [droneC5] [{ parcelC5 with status := "completed" }] [] 0 [("d5", 0)]
      - calculateFitness [droneC5] [parcelC5] [] 0 [("d5", 0)]
      = (parcelC5.priority : ℝ) * 10 := by
  have hfp : optimizerRouter.findPath droneC5.currentPosition parcelC5.position droneC5 [] 0
      = [((0 : ℚ), (0 : ℚ)), ((0 : ℚ), (1 : ℚ))] := findPath100_01 droneC5 0
  have hroute : ¬ ([((0 : ℚ), (0 : ℚ)), ((0 : ℚ), (1 : ℚ))] = ([] : List Point) ∨
      pathBlocked [] 0 [((0 : ℚ), (0 : ℚ)), ((0 : ℚ), (1 : ℚ))]) := by
    rintro (h | ⟨z, hz, _⟩)
    · exact List.noConfusion h
    · cases hz
  have hwin : parcelC5.isWithinTimeWindow 0 := by
    constructor
    · show (0 : ℝ) ≤ 0; norm_num
    · show (0 : ℝ) ≤ 10; norm_num
  have hfc_p : fitContribution [] 0 [parcelC5] droneC5 0 = -2 := by
    rw [fitContribution_singleton, hfp, if_neg hroute,
      if_neg (show ¬ parcelC5.status = "completed" by decide),
      if_neg (not_not_intro hwin)]
    show (0 : ℝ) - eDist ((0 : ℚ), (0 : ℚ)) ((0 : ℚ), (1 : ℚ)) / 1 * 2 - 0 = -2
    rw [eDist01]
    norm_num
  have hwin' : ({ parcelC5 with status := "completed" } : Delivery).isWithinTimeWindow 0 :=
    hwin
  have hfp' : optimizerRouter.findPath droneC5.currentPosition
      ({ parcelC5 with status := "completed" } : Delivery).position droneC5 [] 0
      = [((0 : ℚ), (0 : ℚ)), ((0 : ℚ), (1 : ℚ))] := findPath100_01 droneC5 0
  have hfc_c : fitContribution [] 0 [{ parcelC5 with status := "completed" }] droneC5 0
      = 28 := by
    rw [fitContribution_singleton, hfp', if_neg hroute, if_pos rfl,
      if_neg (not_not_intro hwin')]
    show ((3 : ℤ) : ℝ) * 10 - eDist ((0 : ℚ), (0 : ℚ)) ((0 : ℚ), (1 : ℚ)) / 1 * 2 - 0 = 28
    rw [eDist01]
    norm_num
  refine ⟨⟨by rw [hfp]; exact fun h => List.noConfusion h, by
      rw [hfp]; rintro ⟨z, hz, _⟩; cases hz⟩, rfl, hfc_p, hfc_c, ?_⟩
  have hasg : convertIdx [droneC5] [("d5", (0 : ℕ))] = [("d5", [0])] := rfl
  unfold calculateFitness
  dsimp only
  rw [hasg]
  simp only [List.map_cons, List.map_nil, List.sum_cons, List.sum_nil]
  dsimp only
  rw [show (([droneC5].find? fun dr => dr.id = "d5").getD junkDrone) = droneC5 from rfl]
  rw [hfc_p, hfc_c]
  simp only [List.length_cons, List.length_nil, List.filterMap_cons, List.filterMap_nil,
    List.isEmpty_cons, List.sum_cons, List.sum_nil]
  rw [show (List.countP (fun p => p.2.isEmpty) [("d5", [(0 : ℕ)])]) = 0 from rfl,
    show (List.countP (fun p => ! p.2.isEmpty) [("d5", [(0 : ℕ)])]) = 1 from rfl,
    show (parcelC5.priority : ℝ) = ((3 : ℤ) : ℝ) from rfl]
  norm_num

open Classical in
/-- C5, amended: the `priority · 10` bonus of a pair's fitness
contribution is granted exactly when the oracle accepts the route AND
the parcel's stored lifecycle status at evaluation time is
`"completed"`: with an accepted route, the completed-status copy of a
parcel contributes precisely `priority · 10` more than a copy with any
other stored status, and with a rejected route both contribute the
flat −100 penalty. -/
theorem c5_bonus_requires_completed_status (zones : List NoFlyZone) (t : ℝ)
    (d : Drone) (dl : Delivery) (s : String) (hs : ¬ s = "completed") :
    (¬ (optimizerRouter.findPath d.currentPosition dl.position d zones t = [] ∨
        pathBlocked zones t
          (optimizerRouter.findPath d.currentPosition dl.position d zones t)) →
      fitContribution zones t [{ dl with status := "completed" }] d 0
        = fitContribution zones t [{ dl with status := s }] d 0 + (dl.priority : ℝ) * 10) ∧
    ((optimizerRouter.findPath d.currentPosition dl.position d zones t = [] ∨
        pathBlocked zones t
          (optimizerRouter.findPath d.currentPosition dl.position d zones t)) →
      fitContribution zones t [{ dl with status := "completed" }] d 0 = -100 ∧
      fitContribution zones t [{ dl with status := s }] d 0 = -100) := by
  constructor
  · intro hroute
    rw [fitContribution_singleton, fitContribution_singleton]
    unfold Delivery.isWithinTimeWindow
    dsimp only
    rw [if_neg hroute, if_neg hroute, if_pos rfl, if_neg hs]
    ring
  · intro hroute
    rw [fitContribution_singleton, fitContribution_singleton]
    dsimp only
    rw [if_pos hroute, if_pos hroute]
    exact ⟨rfl, rfl⟩

theorem c5_witness :
    ¬ "pending" = "completed" ∧
    fitContribution [] 0 [{ parcelC5 with status := "completed" }] droneC5 0
      = fitContribution [] 0 [{ parcelC5 with status := "pending" }] droneC5 0
        + (parcelC5.priority : ℝ) * 10 := by
  refine ⟨by decide, ?_⟩
  exact (c5_bonus_requires_completed_status [] 0 droneC5 parcelC5 "pending" (by decide)).1
    (by
      rw [show optimizerRouter.findPath droneC5.currentPosition parcelC5.position droneC5 [] 0
          = [((0 : ℚ), (0 : ℚ)), ((0 : ℚ), (1 : ℚ))] from findPath100_01 droneC5 0]
      rintro (h | ⟨z, hz, _⟩)
      · exact List.noConfusion h
      · cases hz)

/-- No route exists from the out-of-bounds cell `(102, 0)`: its start
cell has no in-bounds neighbours, so the search space is a single
unreachable point. -/
theorem c2_no_path (t : ℝ) :
    optimizerRouter.findPath (102, 0) (0, 0) droneC2 [] t = [] := by
  by_contra h
  have hr := reaches_of_findPath h
  rw [show optimizerRouter.toGrid (102, 0) = (102, 0) by
      unfold AStarRouter.toGrid optimizerRouter ratTrunc; norm_num,
    show optimizerRouter.toGrid (0, 0) = (0, 0) by
      unfold AStarRouter.toGrid optimizerRouter ratTrunc; norm_num] at hr
  rcases Relation.ReflTransGen.cases_head hr with heq | ⟨b, hedge, _⟩
  · exact absurd heq (by decide)
  · have hmem := hedge.1
    rw [show optimizerRouter.getNeighbors (102, 0) = [] from by decide] at hmem
    exact absurd hmem (List.not_mem_nil b)

/-- C2, refuted by the code: with an unexpired deadline, population
size 1 and zero generations, the genetic planner returns the
assignment `[("d2", [0])]` containing parcel 0, the router finds no
path for that pair, yet the returned parcel list still carries the
untouched parcel with status `"pending"` — the no-path branch of the
post-processing only logs and stamps nothing, so the parcel is neither
Completed nor Failed. -/
theorem c2_ga_leaves_pending :
    optimizerRouter.findPath droneC2.currentPosition parcelC2.position droneC2 [] 0 = [] ∧
    (gaSolve [droneC2] [parcelC2] [] 0 1 0 5 rngC2).assignment = [("d2", [0])] ∧
    (gaSolve [droneC2] [parcelC2] [] 0 1 0 5 rngC2).deliveries = [parcelC2] ∧
    parcelC2.status = "pending" := by
  have hnp : optimizerRouter.findPath (102, 0) (0, 0) droneC2 [] 0 = [] := c2_no_path 0
  have heval : gaSolve [droneC2] [parcelC2] [] 0 1 0 5 rngC2
      = { assignment := [("d2", [0])], deliveries := [parcelC2] } := by
    unfold gaSolve
    dsimp only
    rw [show initPopulation [droneC2] ([parcelC2] : List Delivery).length 1 rngC2
        = ([[("d2", 0)]], ⟨[]⟩) from rfl]
    dsimp only
    rw [show gaLoop [droneC2] [parcelC2] [] 0 1 5 0 [[("d2", 0)]] none 0 ⟨[]⟩
        = (none, [[("d2", 0)]], ⟨[]⟩) from rfl]
    dsimp only
    rw [show convertIdx [droneC2] (maxByFitness [droneC2] [parcelC2] [] 0 [[("d2", 0)]])
        = [("d2", [0])] from rfl]
    rw [List.foldl_cons, List.foldl_nil]
    dsimp only
    rw [show (([droneC2].find? fun dr => dr.id = "d2").getD junkDrone) = droneC2 from rfl]
    rw [List.foldl_cons, List.foldl_nil]
    rw [show ([parcelC2].getD 0 junkDelivery) = parcelC2 from rfl]
    rw [if_pos (show optimizerRouter.findPath droneC2.currentPosition parcelC2.position
        droneC2 [] 0 = [] from hnp)]
  exact ⟨hnp, by rw [heval], by rw [heval], rfl⟩

/-- The greedy planner accepts the half-unit-battery vehicle. -/
theorem c1_greedy_accepts : greedyAccepts [] 0 droneC1 parcelC1 := by
  refine ⟨?_, ⟨?_, ?_⟩, ?_⟩
  · show (0 : ℝ) + 1 ≤ 10
    norm_num
  · show (0 : ℝ) ≤ 0
    norm_num
  · show (0 : ℝ) ≤ 10
    norm_num
  · show (optimizerRouter.findPath droneC1.currentPosition parcelC1.position
        droneC1 [] 0 ≠ [] ∧
      ¬ pathBlocked [] 0 (optimizerRouter.findPath droneC1.currentPosition
        parcelC1.position droneC1 [] 0))
    rw [show optimizerRouter.findPath droneC1.currentPosition parcelC1.position droneC1 [] 0
        = [((0 : ℚ), (0 : ℚ)), ((0 : ℚ), (1 : ℚ))] from findPath100_01 droneC1 0]
    exact ⟨fun h => List.noConfusion h, by rintro ⟨z, hz, _⟩; cases hz⟩

/-- C1, counterexample: `droneC1` starts with energy 1/2 ∈ [0, 10], the
greedy planner assigns it `parcelC1` (it never checks the battery), and
the executor then walks the length-1 route, leaving the vehicle's
energy at −1/2 — outside `[0, capacity]`. -/
theorem c1_counterexample :
    (0 ≤ droneC1.currentBattery ∧ droneC1.currentBattery ≤ droneC1.batteryCapacity) ∧
    ((optimizeThenExecute sysC1 false true ⟨[]⟩).1.getD 0 junkDrone).currentBattery
      = -(1/2) ∧
    ¬ 0 ≤ ((optimizeThenExecute sysC1 false true ⟨[]⟩).1.getD 0 junkDrone).currentBattery := by
  have hpick : greedyPick [] 0 [droneC1] parcelC1 =
      some (droneC1, eDist droneC1.currentPosition parcelC1.position) := by
    unfold greedyPick
    rw [List.foldl_cons, List.foldl_nil, if_pos c1_greedy_accepts]
  have hsol : solveGreedy [droneC1] [parcelC1] [] 0
      = { assignment := [("e1", [0])], deliveries := [parcelC1.markCompleted] } := by
    unfold solveGreedy
    dsimp only
    rw [show List.range ([parcelC1].length) = [0] from rfl]
    rw [List.foldl_cons, List.foldl_nil]
    dsimp only
    rw [show ([parcelC1].getD 0 junkDelivery) = parcelC1 from rfl, hpick]
    rfl
  have hexec : optimizeThenExecute sysC1 false true ⟨[]⟩
      = ([droneC1.updatePosition ((0 : ℚ), (1 : ℚ)) (eDist ((0 : ℚ), (0 : ℚ)) ((0 : ℚ), (1 : ℚ)))],
         [parcelC1.markCompleted.markCompleted]) := by
    unfold optimizeThenExecute optimizeDeliveries
    dsimp only
    rw [if_pos rfl]
    dsimp only
    rw [show sysC1.drones = [droneC1] from rfl, show sysC1.deliveries = [parcelC1] from rfl,
      show sysC1.noFlyZones = ([] : List NoFlyZone) from rfl,
      show sysC1.currentTime = (0 : ℝ) from rfl]
    rw [hsol]
    dsimp only
    rw [show sysC1.gridSize = ((100 : ℤ), (100 : ℤ)) from rfl]
    unfold executeDeliveries
    dsimp only
    rw [List.foldl_cons, List.foldl_nil]
    dsimp only
    rw [show (([droneC1].find? fun dr => dr.id = "e1").getD junkDrone) = droneC1 from rfl]
    rw [List.foldl_cons, List.foldl_nil]
    dsimp only
    rw [show ([parcelC1.markCompleted].getD 0 junkDelivery) = parcelC1.markCompleted from rfl]
    rw [show (⟨((100 : ℤ), (100 : ℤ)), 1⟩ : AStarRouter).findPath droneC1.currentPosition
        parcelC1.markCompleted.position droneC1 [] 0
        = [((0 : ℚ), (0 : ℚ)), ((0 : ℚ), (1 : ℚ))] from findPath100_01 droneC1 0]
    rw [if_pos (⟨fun h => List.noConfusion h, by rintro ⟨z, hz, _⟩; cases hz⟩ :
      ([((0 : ℚ), (0 : ℚ)), ((0 : ℚ), (1 : ℚ))] : List Point) ≠ [] ∧
        ¬ pathBlocked [] 0 [((0 : ℚ), (0 : ℚ)), ((0 : ℚ), (1 : ℚ))])]
    rw [show walkPath droneC1 [((0 : ℚ), (0 : ℚ)), ((0 : ℚ), (1 : ℚ))]
        = droneC1.updatePosition ((0 : ℚ), (1 : ℚ))
            (eDist ((0 : ℚ), (0 : ℚ)) ((0 : ℚ), (1 : ℚ))) from rfl]
    rfl
  have hbat : ((optimizeThenExecute sysC1 false true ⟨[]⟩).1.getD 0 junkDrone).currentBattery
      = -(1/2) := by
    rw [hexec]
    show droneC1.currentBattery - eDist ((0 : ℚ), (0 : ℚ)) ((0 : ℚ), (1 : ℚ)) / droneC1.speed
      = -(1/2)
    rw [eDist01]
    show (1/2 : ℝ) - 1 / 1 = -(1/2)
    norm_num
  refine ⟨⟨by show (0 : ℝ) ≤ 1/2; norm_num, by show (1/2 : ℝ) ≤ 10; norm_num⟩, hbat, ?_⟩
  rw [hbat]
  norm_num

theorem batteryOK_junk : batteryOK junkDrone := by
  constructor
  · show (0 : ℝ) < 1; norm_num
  · show (0 : ℝ) ≤ 0; norm_num

/-- Replaying a path never increases the battery and never touches the
speed or the capacity (each step pays `distance / speed ≥ 0`). -/
theorem walkPath_Q (path : List Point) : ∀ d : Drone, 0 < d.speed →
    (walkPath d path).speed = d.speed ∧
    (walkPath d path).batteryCapacity = d.batteryCapacity ∧
    (walkPath d path).currentBattery ≤ d.currentBattery := by
  induction path with
  | nil => intro d _; exact ⟨rfl, rfl, le_refl _⟩
  | cons a rest ih =>
    intro d h
    cases rest with
    | nil => exact ⟨rfl, rfl, le_refl _⟩
    | cons b rest2 =>
      obtain ⟨h1, h2, h3⟩ := ih (d.updatePosition b (eDist a b)) h
      exact ⟨h1, h2, h3.trans (by
        have he : (0 : ℝ) ≤ eDist a b := Real.sqrt_nonneg _
        have hdnn : (0 : ℝ) ≤ eDist a b / d.speed := div_nonneg he (le_of_lt h)
        show d.currentBattery - eDist a b / d.speed ≤ d.currentBattery
        linarith)⟩

theorem executeDeliveries_eq (gridSize : ℤ × ℤ) (drones : List Drone)
    (deliveries : List Delivery) (zones : List NoFlyZone) (t : ℝ)
    (asg : List (String × List ℕ)) :
    executeDeliveries gridSize drones deliveries zones t asg
      = asg.foldl (execStep ⟨gridSize, 1⟩ zones t) (drones, deliveries) := rfl

theorem execInnerStep_Q (router : AStarRouter) (zones : List NoFlyZone) (t : ℝ)
    (acc2 : Drone × List Delivery) (i : ℕ) (h : batteryOK acc2.1) :
    batteryOK (execInnerStep router zones t acc2 i).1 := by
  unfold execInnerStep
  dsimp only
  split_ifs with hc
  · obtain ⟨h1, h2, h3⟩ := walkPath_Q _ acc2.1 h.1
    constructor
    · show 0 < (walkPath acc2.1 _).speed
      rw [h1]; exact h.1
    · show (walkPath acc2.1 _).currentBattery ≤ (walkPath acc2.1 _).batteryCapacity
      exact h3.trans (h.2.trans h2.symm.le)
  · exact h

theorem execInnerFold_Q (router : AStarRouter) (zones : List NoFlyZone) (t : ℝ) :
    ∀ (idxs : List ℕ) (acc2 : Drone × List Delivery), batteryOK acc2.1 →
      batteryOK (idxs.foldl (execInnerStep router zones t) acc2).1 := by
  intro idxs
  induction idxs with
  | nil => intro acc2 h; exact h
  | cons i rest ih =>
    intro acc2 h
    rw [List.foldl_cons]
    exact ih _ (execInnerStep_Q router zones t acc2 i h)

theorem mem_setFirstById {e x : Drone} {id : String} :
    ∀ {l : List Drone}, e ∈ setFirstById id x l → e = x ∨ e ∈ l := by
  intro l
  induction l with
  | nil => intro h; exact absurd h (List.not_mem_nil e)
  | cons d rest ih =>
    intro h
    unfold setFirstById at h
    split_ifs at h with hc
    · rcases List.mem_cons.mp h with rfl | h
      · exact Or.inl rfl
      · exact Or.inr (List.mem_cons_of_mem _ h)
    · rcases List.mem_cons.mp h with rfl | h
      · exact Or.inr (List.mem_cons_self _ _)
      · rcases ih h with h | h
        · exact Or.inl h
        · exact Or.inr (List.mem_cons_of_mem _ h)

theorem execStep_Q (router : AStarRouter) (zones : List NoFlyZone) (t : ℝ)
    (acc : List Drone × List Delivery) (p : String × List ℕ)
    (h : ∀ e ∈ acc.1, batteryOK e) :
    ∀ e ∈ (execStep router zones t acc p).1, batteryOK e := by
  intro e he
  have hfst : (execStep router zones t acc p).1
      = setFirstById p.1
          (p.2.foldl (execInnerStep router zones t)
            (((acc.1.find? fun dr => dr.id = p.1).getD junkDrone), acc.2)).1 acc.1 := rfl
  rw [hfst] at he
  rcases mem_setFirstById he with rfl | hmem
  · apply execInnerFold_Q
    show batteryOK ((acc.1.find? fun dr => dr.id = p.1).getD junkDrone)
    rcases hf : acc.1.find? fun dr => dr.id = p.1 with _ | d
    · rw [show ((acc.1.find? fun dr => dr.id = p.1).getD junkDrone) = junkDrone by
        rw [hf]; rfl]
      exact batteryOK_junk
    · rw [show ((acc.1.find? fun dr => dr.id = p.1).getD junkDrone) = d by rw [hf]; rfl]
      exact h d (List.mem_of_find?_eq_some hf)
  · exact h e hmem

theorem execFold_Q (router : AStarRouter) (zones : List NoFlyZone) (t : ℝ) :
    ∀ (asg : List (String × List ℕ)) (acc : List Drone × List Delivery),
      (∀ e ∈ acc.1, batteryOK e) →
      ∀ e ∈ (asg.foldl (execStep router zones t) acc).1, batteryOK e := by
  intro asg
  induction asg with
  | nil => intro acc h; exact h
  | cons p rest ih =>
    intro acc h
    rw [List.foldl_cons]
    exact ih _ (execStep_Q router zones t acc p h)

/-- The executor preserves `batteryOK` for every vehicle in the fleet. -/
theorem executeDeliveries_battery (gridSize : ℤ × ℤ) (drones : List Drone)
    (dls : List Delivery) (zones : List NoFlyZone) (t : ℝ)
    (asg : List (String × List ℕ)) (h : ∀ d ∈ drones, batteryOK d) :
    ∀ d' ∈ (executeDeliveries gridSize drones dls zones t asg).1, batteryOK d' := by
  rw [executeDeliveries_eq]
  exact execFold_Q _ zones t asg (drones, dls) h

theorem solveCsp_drones_eq (drones : List Drone) (dls : List Delivery)
    (zones : List NoFlyZone) (t : ℝ) :
    (solveCsp drones dls zones t).drones
      = drones.map fun d =>
          { d with
            route := (((cspSort (initSort dls)).enum.foldl (cspStep zones drones)
              (cspStates0 drones t, drones.map fun d => (d.id, ([] : List ℕ)), [])).1
                d.id).route
            currentPosition := (((cspSort (initSort dls)).enum.foldl (cspStep zones drones)
              (cspStates0 drones t, drones.map fun d => (d.id, ([] : List ℕ)), [])).1
                d.id).position
            currentBattery := (((cspSort (initSort dls)).enum.foldl (cspStep zones drones)
              (cspStates0 drones t, drones.map fun d => (d.id, ([] : List ℕ)), [])).1
                d.id).battery } := rfl

theorem statesFold_not_mem (t : ℝ) :
    ∀ (l : List Drone) (f : String → DroneState) (x : String), x ∉ l.map Drone.id →
      (l.foldl (fun f d => Function.update f d.id
          ⟨d.currentPosition, d.currentBattery, t, d.route⟩) f) x = f x := by
  intro l
  induction l with
  | nil => intro f x _; rfl
  | cons d rest ih =>
    intro f x h
    have hne : x ≠ d.id := by
      intro hx
      exact h (by rw [List.map_cons, hx]; exact List.mem_cons_self _ _)
    rw [List.foldl_cons,
      ih _ x (fun hx => h (by rw [List.map_cons]; exact List.mem_cons_of_mem _ hx))]
    exact Function.update_noteq hne _ _

theorem statesFold_lookup (t : ℝ) :
    ∀ (l : List Drone) (f : String → DroneState), (l.map Drone.id).Nodup → ∀ d ∈ l,
      (l.foldl (fun f d => Function.update f d.id
          ⟨d.currentPosition, d.currentBattery, t, d.route⟩) f) d.id
        = ⟨d.currentPosition, d.currentBattery, t, d.route⟩ := by
  intro l
  induction l with
  | nil => intro f _ d hd; exact absurd hd (List.not_mem_nil d)
  | cons d0 rest ih =>
    intro f hnd d hd
    rw [List.map_cons, List.nodup_cons] at hnd
    rw [List.foldl_cons]
    rcases List.mem_cons.mp hd with rfl | hd
    · rw [statesFold_not_mem t rest _ d.id hnd.1]
      exact Function.update_same _ _ _
    · exact ih _ hnd.2 d hd

theorem pathDist_nonneg : ∀ path : List Point, 0 ≤ pathDist path := by
  intro path
  induction path with
  | nil => exact le_of_eq rfl
  | cons a rest ih =>
    cases rest with
    | nil => exact le_of_eq rfl
    | cons b rest2 =>
      show (0 : ℝ) ≤ eDist a b + pathDist (b :: rest2)
      exact add_nonneg (Real.sqrt_nonneg _) ih

theorem cspStep_battery (zones : List NoFlyZone) (drones : List Drone)
    (acc : (String → DroneState) × List (String × List ℕ) × List Delivery)
    (p : ℕ × Delivery) (x : String) :
    (((cspStep zones drones acc p).1) x).battery ≤ ((acc.1) x).battery := by
  obtain ⟨states, asg, done⟩ := acc
  unfold cspStep
  dsimp only
  rcases hsel : cspSelect zones states drones p.2 with _ | ⟨d, arrival, path⟩
  · exact le_refl _
  · dsimp only
    by_cases hx : x = d.id
    · rw [hx, Function.update_same]
      exact sub_le_self _ (pathDist_nonneg path)
    · rw [Function.update_noteq hx]

theorem cspFold_battery (zones : List NoFlyZone) (drones : List Drone) :
    ∀ (ps : List (ℕ × Delivery))
      (acc : (String → DroneState) × List (String × List ℕ) × List Delivery) (x : String),
      (((ps.foldl (cspStep zones drones) acc).1) x).battery ≤ ((acc.1) x).battery := by
  intro ps
  induction ps with
  | nil => intro acc x; exact le_refl _
  | cons p rest ih =>
    intro acc x
    rw [List.foldl_cons]
    exact (ih _ x).trans (cspStep_battery zones drones acc p x)

/-- With unique vehicle ids, the CSP planner's write-back preserves
`batteryOK`: each vehicle's committed battery started from its own
snapshot and only ever decreased by nonnegative path distances. -/
theorem solveCsp_battery (drones : List Drone) (dls : List Delivery)
    (zones : List NoFlyZone) (t : ℝ) (hnd : (drones.map Drone.id).Nodup)
    (h : ∀ d ∈ drones, batteryOK d) :
    ∀ d' ∈ (solveCsp drones dls zones t).drones, batteryOK d' := by
  intro d' hd'
  rw [solveCsp_drones_eq] at hd'
  rcases List.mem_map.mp hd' with ⟨d, hd, rfl⟩
  constructor
  · exact (h d hd).1
  · show (((cspSort (initSort dls)).enum.foldl (cspStep zones drones)
        (cspStates0 drones t, drones.map fun d => (d.id, ([] : List ℕ)), [])).1
          d.id).battery ≤ d.batteryCapacity
    have h1 := cspFold_battery zones drones ((cspSort (initSort dls)).enum)
      (cspStates0 drones t, drones.map fun d => (d.id, ([] : List ℕ)), []) d.id
    dsimp only at h1
    have h2 : cspStates0 drones t d.id
        = ⟨d.currentPosition, d.currentBattery, t, d.route⟩ :=
      statesFold_lookup t drones _ hnd d hd
    rw [h2] at h1
    exact h1.trans ((h d hd).2)

open Classical in
/-- C1, amended: after optimize (any strategy) followed by execute, every
vehicle's energy is still at most its capacity — provided vehicle ids
are unique, speeds are positive and the initial energies are within
capacity — because every battery mutation in the pipeline subtracts a
nonnegative distance (or distance/speed).  The lower bound of the
original claim fails (`c1_counterexample`): nothing stops the energy
from going below zero. -/
theorem c1_battery_upper_bound (s : DeliverySystem) (useGenetic useGreedy : Bool)
    (rng : Rng) (hnd : (s.drones.map Drone.id).Nodup)
    (hok : ∀ d ∈ s.drones, 0 < d.speed ∧ d.currentBattery ≤ d.batteryCapacity) :
    ∀ d' ∈ (optimizeThenExecute s useGenetic useGreedy rng).1,
      d'.currentBattery ≤ d'.batteryCapacity := by
  intro d' hd'
  unfold optimizeThenExecute optimizeDeliveries at hd'
  dsimp only at hd'
  rcases useGreedy with _ | _
  · rw [if_neg (by decide : ¬ (false = true))] at hd'
    rcases useGenetic with _ | _
    · rw [if_neg (by decide : ¬ (false = true))] at hd'
      dsimp only at hd'
      exact (executeDeliveries_battery _ _ _ _ _ _
        (solveCsp_battery s.drones s.deliveries s.noFlyZones s.currentTime hnd hok)
        d' hd').2
    · rw [if_pos rfl] at hd'
      dsimp only at hd'
      exact (executeDeliveries_battery _ _ _ _ _ _ hok d' hd').2
  · rw [if_pos rfl] at hd'
    dsimp only at hd'
    exact (executeDeliveries_battery _ _ _ _ _ _ hok d' hd').2

theorem c1_witness :
    (([droneC1].map Drone.id).Nodup ∧
      ∀ d ∈ [droneC1], 0 < d.speed ∧ d.currentBattery ≤ d.batteryCapacity) ∧
    ∀ d' ∈ (optimizeThenExecute sysC1 false true ⟨[]⟩).1,
      d'.currentBattery ≤ d'.batteryCapacity := by
  have hnd : (([droneC1] : List Drone).map Drone.id).Nodup := by simp
  have hok : ∀ d ∈ ([droneC1] : List Drone),
      0 < d.speed ∧ d.currentBattery ≤ d.batteryCapacity := by
    intro d hd
    obtain rfl := List.mem_singleton.mp hd
    constructor
    · show (0 : ℝ) < 1; norm_num
    · show (1/2 : ℝ) ≤ 10; norm_num
  exact ⟨⟨hnd, hok⟩, c1_battery_upper_bound sysC1 false true ⟨[]⟩ hnd hok⟩

end DroneFilo
